import Mathlib

/-!
# Traffic metering of the pbf protocol message stream

A shallow embedding of `pbf/metrics.go`: the forty package-level meters, the
`meteredMsgReadWriter` wrapper around a `p2p.MsgReadWriter`, its constructor
`newMeteredMsgWriter` and its methods `Init`, `ReadMsg` and `WriteMsg`.

Stateful code is written in explicit state-passing style.  The package-level
meters live in an `Env`; a stream object carries its own private state.
-/

namespace Pbf

/-- Go `error` value; `none` is `nil`. -/
abbrev error := Option String

/-- Go conversion `int64(x)` of an unsigned value: two's complement wrap to 64 bits. -/
def int64 (n : Nat) : Int := ((n : Int) + 2 ^ 63) % 2 ^ 64 - 2 ^ 63

namespace p2p

/-- Modelled from the spec: the message type `p2p.Msg` (package `p2p` is not part of
the sources at hand): "Message: {code: integer, size: integer, payload: opaque}".
`Code` is a `uint64` and `Size` a `uint32` in `metrics.go`, where `msg.Code` is
compared with the message codes and `msg.Size` is converted by `int64(msg.Size)`. -/
structure Msg where
  Code : Nat
  Size : Nat
  Payload : List Nat
  code_lt : Code < 2 ^ 64
  size_lt : Size < 2 ^ 32
  deriving DecidableEq

/-- Modelled from the spec: the interface `p2p.MsgReadWriter` (package `p2p` is not
part of the sources at hand): a bidirectional message channel exposing
"readMessage() -> (Message, error)" and "writeMessage(Message) -> error".
A value of the interface is an object: a private state together with its two
methods.  The private state of a wrapped stream is disjoint from the meters. -/
structure MsgReadWriter (σ : Type) where
  state : σ
  readMsg : σ → (Msg × error) × σ
  writeMsg : σ → Msg → error × σ

/-- Method call `rw.ReadMsg()` on an interface value: the result and the object afterwards. -/
def MsgReadWriter.ReadMsg {σ : Type} (rw : MsgReadWriter σ) : (Msg × error) × MsgReadWriter σ :=
  ((rw.readMsg rw.state).1, { rw with state := (rw.readMsg rw.state).2 })

/-- Method call `rw.WriteMsg(msg)` on an interface value: the result and the object afterwards. -/
def MsgReadWriter.WriteMsg {σ : Type} (rw : MsgReadWriter σ) (msg : Msg) : error × MsgReadWriter σ :=
  ((rw.writeMsg rw.state msg).1, { rw with state := (rw.writeMsg rw.state msg).2 })

end p2p

/-- The protocol's constant table (`pbf62`, `pbf63` and the message codes), declared in
the package's protocol file, which is not part of the sources at hand: taken as a
parameter of the methods that use it. -/
structure Protocol where
  pbf62 : Int
  pbf63 : Int
  NewBlockHashesMsg : Nat
  TxMsg : Nat
  BlockHashesMsg : Nat
  BlocksMsg : Nat
  NewBlockMsg : Nat
  BlockHeadersMsg : Nat
  BlockBodiesMsg : Nat
  NodeDataMsg : Nat
  ReceiptsMsg : Nat

/-- The forty package-level meters of `metrics.go`, by variable name. -/
inductive Meter
  | propTxnInPacketsMeter
  | propTxnInTrafficMeter
  | propTxnOutPacketsMeter
  | propTxnOutTrafficMeter
  | propHashInPacketsMeter
  | propHashInTrafficMeter
  | propHashOutPacketsMeter
  | propHashOutTrafficMeter
  | propBlockInPacketsMeter
  | propBlockInTrafficMeter
  | propBlockOutPacketsMeter
  | propBlockOutTrafficMeter
  | reqHashInPacketsMeter
  | reqHashInTrafficMeter
  | reqHashOutPacketsMeter
  | reqHashOutTrafficMeter
  | reqBlockInPacketsMeter
  | reqBlockInTrafficMeter
  | reqBlockOutPacketsMeter
  | reqBlockOutTrafficMeter
  | reqHeaderInPacketsMeter
  | reqHeaderInTrafficMeter
  | reqHeaderOutPacketsMeter
  | reqHeaderOutTrafficMeter
  | reqBodyInPacketsMeter
  | reqBodyInTrafficMeter
  | reqBodyOutPacketsMeter
  | reqBodyOutTrafficMeter
  | reqStateInPacketsMeter
  | reqStateInTrafficMeter
  | reqStateOutPacketsMeter
  | reqStateOutTrafficMeter
  | reqReceiptInPacketsMeter
  | reqReceiptInTrafficMeter
  | reqReceiptOutPacketsMeter
  | reqReceiptOutTrafficMeter
  | miscInPacketsMeter
  | miscInTrafficMeter
  | miscOutPacketsMeter
  | miscOutTrafficMeter
  deriving DecidableEq, Repr

open Meter

/-- The name under which each meter is registered (`metrics.NewMeter("...")`). -/
def Meter.name : Meter → String
  | propTxnInPacketsMeter => "pbf/prop/txns/in/packets"
  | propTxnInTrafficMeter => "pbf/prop/txns/in/traffic"
  | propTxnOutPacketsMeter => "pbf/prop/txns/out/packets"
  | propTxnOutTrafficMeter => "pbf/prop/txns/out/traffic"
  | propHashInPacketsMeter => "pbf/prop/hashes/in/packets"
  | propHashInTrafficMeter => "pbf/prop/hashes/in/traffic"
  | propHashOutPacketsMeter => "pbf/prop/hashes/out/packets"
  | propHashOutTrafficMeter => "pbf/prop/hashes/out/traffic"
  | propBlockInPacketsMeter => "pbf/prop/blocks/in/packets"
  | propBlockInTrafficMeter => "pbf/prop/blocks/in/traffic"
  | propBlockOutPacketsMeter => "pbf/prop/blocks/out/packets"
  | propBlockOutTrafficMeter => "pbf/prop/blocks/out/traffic"
  | reqHashInPacketsMeter => "pbf/req/hashes/in/packets"
  | reqHashInTrafficMeter => "pbf/req/hashes/in/traffic"
  | reqHashOutPacketsMeter => "pbf/req/hashes/out/packets"
  | reqHashOutTrafficMeter => "pbf/req/hashes/out/traffic"
  | reqBlockInPacketsMeter => "pbf/req/blocks/in/packets"
  | reqBlockInTrafficMeter => "pbf/req/blocks/in/traffic"
  | reqBlockOutPacketsMeter => "pbf/req/blocks/out/packets"
  | reqBlockOutTrafficMeter => "pbf/req/blocks/out/traffic"
  | reqHeaderInPacketsMeter => "pbf/req/headers/in/packets"
  | reqHeaderInTrafficMeter => "pbf/req/headers/in/traffic"
  | reqHeaderOutPacketsMeter => "pbf/req/headers/out/packets"
  | reqHeaderOutTrafficMeter => "pbf/req/headers/out/traffic"
  | reqBodyInPacketsMeter => "pbf/req/bodies/in/packets"
  | reqBodyInTrafficMeter => "pbf/req/bodies/in/traffic"
  | reqBodyOutPacketsMeter => "pbf/req/bodies/out/packets"
  | reqBodyOutTrafficMeter => "pbf/req/bodies/out/traffic"
  | reqStateInPacketsMeter => "pbf/req/states/in/packets"
  | reqStateInTrafficMeter => "pbf/req/states/in/traffic"
  | reqStateOutPacketsMeter => "pbf/req/states/out/packets"
  | reqStateOutTrafficMeter => "pbf/req/states/out/traffic"
  | reqReceiptInPacketsMeter => "pbf/req/receipts/in/packets"
  | reqReceiptInTrafficMeter => "pbf/req/receipts/in/traffic"
  | reqReceiptOutPacketsMeter => "pbf/req/receipts/out/packets"
  | reqReceiptOutTrafficMeter => "pbf/req/receipts/out/traffic"
  | miscInPacketsMeter => "pbf/misc/in/packets"
  | miscInTrafficMeter => "pbf/misc/in/traffic"
  | miscOutPacketsMeter => "pbf/misc/out/packets"
  | miscOutTrafficMeter => "pbf/misc/out/traffic"

/-- A call a method makes to one of its collaborators: a meter or the wrapped stream. -/
inductive Call
  | Mark (m : Meter) (n : Int)
  | ReadMsg
  | WriteMsg (msg : p2p.Msg)
  deriving DecidableEq

/-- The package-level state: the count of every meter, and the calls made so far to
the meters and to wrapped streams, oldest first. -/
structure Env where
  count : Meter → Int
  calls : List Call

/-- Records a call to a collaborator. -/
def Env.call (e : Env) (c : Call) : Env :=
  { e with calls := e.calls ++ [c] }

/-- Modelled from the spec: `Mark` of a meter (package `metrics` is not part of the
sources at hand): a meter is a counter "updated only by atomic addition"; `m.Mark(n)`
adds `n` to the count of `m` and leaves every other meter alone.  The count is the
exact total of the marked values (the width of the counter's storage is not modelled). -/
def Meter.Mark (m : Meter) (n : Int) (e : Env) : Env :=
  { count := fun k => if k = m then e.count k + n else e.count k
    calls := e.calls ++ [Call.Mark m n] }

/-- The wrapper `meteredMsgReadWriter`: the wrapped message stream and the protocol version. -/
structure meteredMsgReadWriter (σ : Type) where
  MsgReadWriter : p2p.MsgReadWriter σ
  version : Int

/-- The dynamic value behind the `p2p.MsgReadWriter` that `newMeteredMsgWriter` returns:
either the original object or a pointer to a fresh wrapper. -/
inductive Stream (σ : Type)
  | original (rw : p2p.MsgReadWriter σ)
  | metered (rw : meteredMsgReadWriter σ)

/-- Constructor `newMeteredMsgWriter`; `Enabled` is the flag `metrics.Enabled`. -/
def newMeteredMsgWriter {σ : Type} (Enabled : Bool) (rw : p2p.MsgReadWriter σ) : Stream σ :=
  if !Enabled then
    Stream.original rw
  else
    Stream.metered { MsgReadWriter := rw, version := 0 }

/-- Method `Init`: sets the protocol version. -/
def meteredMsgReadWriter.Init {σ : Type} (rw : meteredMsgReadWriter σ) (version : Int) :
    meteredMsgReadWriter σ :=
  { rw with version := version }

/-- Method `ReadMsg`: the returned pair, the wrapper afterwards and the package state afterwards. -/
def meteredMsgReadWriter.ReadMsg {σ : Type} (K : Protocol) (rw : meteredMsgReadWriter σ) (e : Env) :
    (p2p.Msg × error) × meteredMsgReadWriter σ × Env :=
  -- Read the message and short circuit in case of an error
  let msg := rw.MsgReadWriter.ReadMsg.1.1
  let err := rw.MsgReadWriter.ReadMsg.1.2
  let rw1 := { rw with MsgReadWriter := rw.MsgReadWriter.ReadMsg.2 }
  let e1 := e.call Call.ReadMsg
  if err ≠ none then
    ((msg, err), rw1, e1)
  else
    -- Account for the data traffic
    let pt : Meter × Meter :=
      if rw.version < K.pbf62 ∧ msg.Code = K.BlockHashesMsg then
        (reqHashInPacketsMeter, reqHashInTrafficMeter)
      else if rw.version < K.pbf62 ∧ msg.Code = K.BlocksMsg then
        (reqBlockInPacketsMeter, reqBlockInTrafficMeter)
      else if rw.version ≥ K.pbf62 ∧ msg.Code = K.BlockHeadersMsg then
        (reqHeaderInPacketsMeter, reqHeaderInTrafficMeter)
      else if rw.version ≥ K.pbf62 ∧ msg.Code = K.BlockBodiesMsg then
        (reqBodyInPacketsMeter, reqBodyInTrafficMeter)
      else if rw.version ≥ K.pbf63 ∧ msg.Code = K.NodeDataMsg then
        (reqStateInPacketsMeter, reqStateInTrafficMeter)
      else if rw.version ≥ K.pbf63 ∧ msg.Code = K.ReceiptsMsg then
        (reqReceiptInPacketsMeter, reqReceiptInTrafficMeter)
      else if msg.Code = K.NewBlockHashesMsg then
        (propHashInPacketsMeter, propHashInTrafficMeter)
      else if msg.Code = K.NewBlockMsg then
        (propBlockInPacketsMeter, propBlockInTrafficMeter)
      else if msg.Code = K.TxMsg then
        (propTxnInPacketsMeter, propTxnInTrafficMeter)
      else
        (miscInPacketsMeter, miscInTrafficMeter)
    let e2 := pt.1.Mark 1 e1
    let e3 := pt.2.Mark (int64 msg.Size) e2
    ((msg, err), rw1, e3)

/-- Method `WriteMsg`: the returned error, the wrapper afterwards and the package state afterwards. -/
def meteredMsgReadWriter.WriteMsg {σ : Type} (K : Protocol) (rw : meteredMsgReadWriter σ)
    (msg : p2p.Msg) (e : Env) : error × meteredMsgReadWriter σ × Env :=
  -- Account for the data traffic
  let pt : Meter × Meter :=
    if rw.version < K.pbf62 ∧ msg.Code = K.BlockHashesMsg then
      (reqHashOutPacketsMeter, reqHashOutTrafficMeter)
    else if rw.version < K.pbf62 ∧ msg.Code = K.BlocksMsg then
      (reqBlockOutPacketsMeter, reqBlockOutTrafficMeter)
    else if rw.version ≥ K.pbf62 ∧ msg.Code = K.BlockHeadersMsg then
      (reqHeaderOutPacketsMeter, reqHeaderOutTrafficMeter)
    else if rw.version ≥ K.pbf62 ∧ msg.Code = K.BlockBodiesMsg then
      (reqBodyOutPacketsMeter, reqBodyOutTrafficMeter)
    else if rw.version ≥ K.pbf63 ∧ msg.Code = K.NodeDataMsg then
      (reqStateOutPacketsMeter, reqStateOutTrafficMeter)
    else if rw.version ≥ K.pbf63 ∧ msg.Code = K.ReceiptsMsg then
      (reqReceiptOutPacketsMeter, reqReceiptOutTrafficMeter)
    else if msg.Code = K.NewBlockHashesMsg then
      (propHashOutPacketsMeter, propHashOutTrafficMeter)
    else if msg.Code = K.NewBlockMsg then
      (propBlockOutPacketsMeter, propBlockOutTrafficMeter)
    else if msg.Code = K.TxMsg then
      (propTxnOutPacketsMeter, propTxnOutTrafficMeter)
    else
      (miscOutPacketsMeter, miscOutTrafficMeter)
  let e1 := pt.1.Mark 1 e
  let e2 := pt.2.Mark (int64 msg.Size) e1
  -- Send the packet to the p2p layer
  let e3 := e2.call (Call.WriteMsg msg)
  ((rw.MsgReadWriter.WriteMsg msg).1, { rw with MsgReadWriter := (rw.MsgReadWriter.WriteMsg msg).2 }, e3)

/-- The nine case guards of the switch in `ReadMsg` (and of the identical switch in
`WriteMsg`), in source order, for a stream bound to `version` and a message code `code`. -/
def caseGuards (K : Protocol) (version : Int) (code : Nat) : List Bool :=
  [ decide (version < K.pbf62 ∧ code = K.BlockHashesMsg),
    decide (version < K.pbf62 ∧ code = K.BlocksMsg),
    decide (version ≥ K.pbf62 ∧ code = K.BlockHeadersMsg),
    decide (version ≥ K.pbf62 ∧ code = K.BlockBodiesMsg),
    decide (version ≥ K.pbf63 ∧ code = K.NodeDataMsg),
    decide (version ≥ K.pbf63 ∧ code = K.ReceiptsMsg),
    decide (code = K.NewBlockHashesMsg),
    decide (code = K.NewBlockMsg),
    decide (code = K.TxMsg) ]

/-- Direction of a meter: the `in` or `out` component of its name. -/
inductive Direction
  | In
  | Out
  deriving DecidableEq, Repr

/-- Category of a meter: the component of its name between `pbf/` and the direction. -/
inductive Category
  | propTxn
  | propHash
  | propBlock
  | reqHash
  | reqBlock
  | reqHeader
  | reqBody
  | reqState
  | reqReceipt
  | misc
  deriving DecidableEq, Repr

/-- The name component of a direction. -/
def Direction.path : Direction → String
  | Direction.In => "in"
  | Direction.Out => "out"

/-- The name component of a category. -/
def Category.path : Category → String
  | Category.propTxn => "prop/txns"
  | Category.propHash => "prop/hashes"
  | Category.propBlock => "prop/blocks"
  | Category.reqHash => "req/hashes"
  | Category.reqBlock => "req/blocks"
  | Category.reqHeader => "req/headers"
  | Category.reqBody => "req/bodies"
  | Category.reqState => "req/states"
  | Category.reqReceipt => "req/receipts"
  | Category.misc => "misc"

/-- The packets meter of a direction and category. -/
def packetsMeter : Direction → Category → Meter
  | Direction.In, Category.propTxn => propTxnInPacketsMeter
  | Direction.In, Category.propHash => propHashInPacketsMeter
  | Direction.In, Category.propBlock => propBlockInPacketsMeter
  | Direction.In, Category.reqHash => reqHashInPacketsMeter
  | Direction.In, Category.reqBlock => reqBlockInPacketsMeter
  | Direction.In, Category.reqHeader => reqHeaderInPacketsMeter
  | Direction.In, Category.reqBody => reqBodyInPacketsMeter
  | Direction.In, Category.reqState => reqStateInPacketsMeter
  | Direction.In, Category.reqReceipt => reqReceiptInPacketsMeter
  | Direction.In, Category.misc => miscInPacketsMeter
  | Direction.Out, Category.propTxn => propTxnOutPacketsMeter
  | Direction.Out, Category.propHash => propHashOutPacketsMeter
  | Direction.Out, Category.propBlock => propBlockOutPacketsMeter
  | Direction.Out, Category.reqHash => reqHashOutPacketsMeter
  | Direction.Out, Category.reqBlock => reqBlockOutPacketsMeter
  | Direction.Out, Category.reqHeader => reqHeaderOutPacketsMeter
  | Direction.Out, Category.reqBody => reqBodyOutPacketsMeter
  | Direction.Out, Category.reqState => reqStateOutPacketsMeter
  | Direction.Out, Category.reqReceipt => reqReceiptOutPacketsMeter
  | Direction.Out, Category.misc => miscOutPacketsMeter

/-- The traffic meter of a direction and category. -/
def trafficMeter : Direction → Category → Meter
  | Direction.In, Category.propTxn => propTxnInTrafficMeter
  | Direction.In, Category.propHash => propHashInTrafficMeter
  | Direction.In, Category.propBlock => propBlockInTrafficMeter
  | Direction.In, Category.reqHash => reqHashInTrafficMeter
  | Direction.In, Category.reqBlock => reqBlockInTrafficMeter
  | Direction.In, Category.reqHeader => reqHeaderInTrafficMeter
  | Direction.In, Category.reqBody => reqBodyInTrafficMeter
  | Direction.In, Category.reqState => reqStateInTrafficMeter
  | Direction.In, Category.reqReceipt => reqReceiptInTrafficMeter
  | Direction.In, Category.misc => miscInTrafficMeter
  | Direction.Out, Category.propTxn => propTxnOutTrafficMeter
  | Direction.Out, Category.propHash => propHashOutTrafficMeter
  | Direction.Out, Category.propBlock => propBlockOutTrafficMeter
  | Direction.Out, Category.reqHash => reqHashOutTrafficMeter
  | Direction.Out, Category.reqBlock => reqBlockOutTrafficMeter
  | Direction.Out, Category.reqHeader => reqHeaderOutTrafficMeter
  | Direction.Out, Category.reqBody => reqBodyOutTrafficMeter
  | Direction.Out, Category.reqState => reqStateOutTrafficMeter
  | Direction.Out, Category.reqReceipt => reqReceiptOutTrafficMeter
  | Direction.Out, Category.misc => miscOutTrafficMeter

/-- The ten packets meters of a direction. -/
def packetsMeters : Direction → List Meter
  | Direction.In =>
    [propTxnInPacketsMeter, propHashInPacketsMeter, propBlockInPacketsMeter,
     reqHashInPacketsMeter, reqBlockInPacketsMeter, reqHeaderInPacketsMeter,
     reqBodyInPacketsMeter, reqStateInPacketsMeter, reqReceiptInPacketsMeter,
     miscInPacketsMeter]
  | Direction.Out =>
    [propTxnOutPacketsMeter, propHashOutPacketsMeter, propBlockOutPacketsMeter,
     reqHashOutPacketsMeter, reqBlockOutPacketsMeter, reqHeaderOutPacketsMeter,
     reqBodyOutPacketsMeter, reqStateOutPacketsMeter, reqReceiptOutPacketsMeter,
     miscOutPacketsMeter]

/-- The ten traffic meters of a direction. -/
def trafficMeters : Direction → List Meter
  | Direction.In =>
    [propTxnInTrafficMeter, propHashInTrafficMeter, propBlockInTrafficMeter,
     reqHashInTrafficMeter, reqBlockInTrafficMeter, reqHeaderInTrafficMeter,
     reqBodyInTrafficMeter, reqStateInTrafficMeter, reqReceiptInTrafficMeter,
     miscInTrafficMeter]
  | Direction.Out =>
    [propTxnOutTrafficMeter, propHashOutTrafficMeter, propBlockOutTrafficMeter,
     reqHashOutTrafficMeter, reqBlockOutTrafficMeter, reqHeaderOutTrafficMeter,
     reqBodyOutTrafficMeter, reqStateOutTrafficMeter, reqReceiptOutTrafficMeter,
     miscOutTrafficMeter]

/-- Sum of the counts of the listed meters. -/
def Env.total (e : Env) (ms : List Meter) : Int :=
  (ms.map e.count).sum

/-- The category the switch of `ReadMsg` and of `WriteMsg` resolves: the two switches
have the same guards in the same order and differ in the direction of the meters only. -/
def resolve (K : Protocol) (version : Int) (code : Nat) : Category :=
  if version < K.pbf62 ∧ code = K.BlockHashesMsg then Category.reqHash
  else if version < K.pbf62 ∧ code = K.BlocksMsg then Category.reqBlock
  else if version ≥ K.pbf62 ∧ code = K.BlockHeadersMsg then Category.reqHeader
  else if version ≥ K.pbf62 ∧ code = K.BlockBodiesMsg then Category.reqBody
  else if version ≥ K.pbf63 ∧ code = K.NodeDataMsg then Category.reqState
  else if version ≥ K.pbf63 ∧ code = K.ReceiptsMsg then Category.reqReceipt
  else if code = K.NewBlockHashesMsg then Category.propHash
  else if code = K.NewBlockMsg then Category.propBlock
  else if code = K.TxMsg then Category.propTxn
  else Category.misc

/-- The package state after a message of size `size` was counted under the category
`c` of direction `d`: the packets meter marked by 1, then the traffic meter by `size`. -/
def counted (d : Direction) (c : Category) (size : Nat) (e : Env) : Env :=
  (trafficMeter d c).Mark (size : Int) ((packetsMeter d c).Mark 1 e)

/-- A call on one of the metered streams of a node; the streams are numbered. -/
inductive Op
  | ReadMsg (i : Nat)
  | WriteMsg (i : Nat) (msg : p2p.Msg)
  | Init (i : Nat) (version : Int)

/-- What a call returned. -/
inductive Result
  | ReadMsg (msg : p2p.Msg) (err : error)
  | WriteMsg (err : error)
  | Init
  deriving DecidableEq

/-- A node: its metered streams, which share the package-level meters. -/
structure Node (σ : Type) where
  streams : Nat → meteredMsgReadWriter σ
  env : Env

/-- One call on a node. -/
def Node.step {σ : Type} (K : Protocol) (n : Node σ) : Op → Result × Node σ
  | Op.ReadMsg i =>
    (Result.ReadMsg ((n.streams i).ReadMsg K n.env).1.1 ((n.streams i).ReadMsg K n.env).1.2,
     { streams := fun j => if j = i then ((n.streams i).ReadMsg K n.env).2.1 else n.streams j
       env := ((n.streams i).ReadMsg K n.env).2.2 })
  | Op.WriteMsg i msg =>
    (Result.WriteMsg ((n.streams i).WriteMsg K msg n.env).1,
     { streams := fun j => if j = i then ((n.streams i).WriteMsg K msg n.env).2.1 else n.streams j
       env := ((n.streams i).WriteMsg K msg n.env).2.2 })
  | Op.Init i version =>
    (Result.Init,
     { streams := fun j => if j = i then (n.streams i).Init version else n.streams j
       env := n.env })

/-- A sequence of calls on a node: the results in order and the node afterwards. -/
def Node.run {σ : Type} (K : Protocol) (n : Node σ) : List Op → List Result × Node σ
  | [] => ([], n)
  | op :: ops =>
    ((n.step K op).1 :: ((n.step K op).2.run K ops).1, ((n.step K op).2.run K ops).2)

/-- Number of `ReadMsg` calls that succeeded (returned a nil error). -/
def successfulReads : List Result → Nat
  | [] => 0
  | Result.ReadMsg _ none :: rs => successfulReads rs + 1
  | _ :: rs => successfulReads rs

/-- Sum of `msg.Size` over the messages returned by successful `ReadMsg` calls. -/
def bytesRead : List Result → Int
  | [] => 0
  | Result.ReadMsg msg none :: rs => (msg.Size : Int) + bytesRead rs
  | _ :: rs => bytesRead rs

/-- Sum of `msg.Size` over the arguments of the `WriteMsg` calls. -/
def bytesWritten : List Op → Int
  | [] => 0
  | Op.WriteMsg _ msg :: ops => (msg.Size : Int) + bytesWritten ops
  | _ :: ops => bytesWritten ops

/-- A call on a `p2p.MsgReadWriter`. -/
inductive Request
  | ReadMsg
  | WriteMsg (msg : p2p.Msg)

/-- What a call on a `p2p.MsgReadWriter` returned. -/
inductive Reply
  | ReadMsg (msg : p2p.Msg) (err : error)
  | WriteMsg (err : error)
  deriving DecidableEq

/-- Dynamic dispatch of `ReadMsg` on the value `newMeteredMsgWriter` returned. -/
def Stream.ReadMsg {σ : Type} (K : Protocol) : Stream σ → Env → (p2p.Msg × error) × Stream σ × Env
  | Stream.original rw, e => (rw.ReadMsg.1, Stream.original rw.ReadMsg.2, e)
  | Stream.metered rw, e => ((rw.ReadMsg K e).1, Stream.metered (rw.ReadMsg K e).2.1, (rw.ReadMsg K e).2.2)

/-- Dynamic dispatch of `WriteMsg` on the value `newMeteredMsgWriter` returned. -/
def Stream.WriteMsg {σ : Type} (K : Protocol) : Stream σ → p2p.Msg → Env → error × Stream σ × Env
  | Stream.original rw, msg, e => ((rw.WriteMsg msg).1, Stream.original (rw.WriteMsg msg).2, e)
  | Stream.metered rw, msg, e =>
    ((rw.WriteMsg K msg e).1, Stream.metered (rw.WriteMsg K msg e).2.1, (rw.WriteMsg K msg e).2.2)

/-- A sequence of calls on the value `newMeteredMsgWriter` returned. -/
def Stream.run {σ : Type} (K : Protocol) : Stream σ → Env → List Request → List Reply × Stream σ × Env
  | s, e, [] => ([], s, e)
  | s, e, Request.ReadMsg :: rs =>
    (Reply.ReadMsg (s.ReadMsg K e).1.1 (s.ReadMsg K e).1.2 ::
       (Stream.run K (s.ReadMsg K e).2.1 (s.ReadMsg K e).2.2 rs).1,
     (Stream.run K (s.ReadMsg K e).2.1 (s.ReadMsg K e).2.2 rs).2)
  | s, e, Request.WriteMsg msg :: rs =>
    (Reply.WriteMsg (s.WriteMsg K msg e).1 ::
       (Stream.run K (s.WriteMsg K msg e).2.1 (s.WriteMsg K msg e).2.2 rs).1,
     (Stream.run K (s.WriteMsg K msg e).2.1 (s.WriteMsg K msg e).2.2 rs).2)

/-- The same sequence of calls made on a `p2p.MsgReadWriter` directly. -/
def p2p.MsgReadWriter.run {σ : Type} : p2p.MsgReadWriter σ → List Request → List Reply × p2p.MsgReadWriter σ
  | rw, [] => ([], rw)
  | rw, Request.ReadMsg :: rs =>
    (Reply.ReadMsg rw.ReadMsg.1.1 rw.ReadMsg.1.2 :: (p2p.MsgReadWriter.run rw.ReadMsg.2 rs).1,
     (p2p.MsgReadWriter.run rw.ReadMsg.2 rs).2)
  | rw, Request.WriteMsg msg :: rs =>
    (Reply.WriteMsg (rw.WriteMsg msg).1 :: (p2p.MsgReadWriter.run (rw.WriteMsg msg).2 rs).1,
     (p2p.MsgReadWriter.run (rw.WriteMsg msg).2 rs).2)

/-- Modelled from the spec: the protocol's constant table (the package's protocol file is
not part of the sources at hand).  The message codes are those the protocol assigns:
`BlockHashesMsg` and `BlockHeadersMsg` share 0x04, `BlocksMsg` and `BlockBodiesMsg` share
0x06; the version thresholds are the numbers in their names. -/
def pbfProtocol : Protocol where
  pbf62 := 62
  pbf63 := 63
  NewBlockHashesMsg := 0x01
  TxMsg := 0x02
  BlockHashesMsg := 0x04
  BlocksMsg := 0x06
  NewBlockMsg := 0x07
  BlockHeadersMsg := 0x04
  BlockBodiesMsg := 0x06
  NodeDataMsg := 0x0e
  ReceiptsMsg := 0x10

/-- A test stream: its state is the list of messages still to be read and the list of
messages written so far; reading from an empty stream fails with `EOF`, writing a
message larger than 1024 bytes fails with `message too big`. -/
def scriptedStream (incoming : List p2p.Msg) : p2p.MsgReadWriter (List p2p.Msg × List p2p.Msg) where
  state := (incoming, [])
  readMsg := fun s =>
    match s.1 with
    | [] => ((⟨0, 0, [], by decide, by decide⟩, some "EOF"), s)
    | m :: ms => ((m, none), (ms, s.2))
  writeMsg := fun s msg =>
    if msg.Size > 1024 then (some "message too big", s) else (none, (s.1, s.2 ++ [msg]))

/-- A test message with the given code (taken modulo 2^64) and size (modulo 2^32), no payload. -/
def mkMsg (code size : Nat) : p2p.Msg :=
  ⟨code % 2 ^ 64, size % 2 ^ 32, [], Nat.mod_lt _ (by decide), Nat.mod_lt _ (by decide)⟩

/-- The package state at start-up: every meter at zero, no call made. -/
def Env.init : Env :=
  { count := fun _ => 0, calls := [] }

/-- Whether a call is made to the wrapped stream (rather than to a meter). -/
def Call.onStream : Call → Bool
  | Call.Mark _ _ => false
  | Call.ReadMsg => true
  | Call.WriteMsg _ => true

/-- A test wrapper: a metered `scriptedStream` bound to `version`. -/
def meteredStream (version : Int) (incoming : List p2p.Msg) :
    meteredMsgReadWriter (List p2p.Msg × List p2p.Msg) :=
  { MsgReadWriter := scriptedStream incoming, version := version }

/-- The nine cases of the switch in `ReadMsg` (and of the identical switch in
`WriteMsg`), in source order: each case guard with the category of the two meters its
body selects. -/
def caseRules (K : Protocol) (version : Int) (code : Nat) : List (Bool × Category) :=
  [ (decide (version < K.pbf62 ∧ code = K.BlockHashesMsg), Category.reqHash),
    (decide (version < K.pbf62 ∧ code = K.BlocksMsg), Category.reqBlock),
    (decide (version ≥ K.pbf62 ∧ code = K.BlockHeadersMsg), Category.reqHeader),
    (decide (version ≥ K.pbf62 ∧ code = K.BlockBodiesMsg), Category.reqBody),
    (decide (version ≥ K.pbf63 ∧ code = K.NodeDataMsg), Category.reqState),
    (decide (version ≥ K.pbf63 ∧ code = K.ReceiptsMsg), Category.reqReceipt),
    (decide (code = K.NewBlockHashesMsg), Category.propHash),
    (decide (code = K.NewBlockMsg), Category.propBlock),
    (decide (code = K.TxMsg), Category.propTxn) ]

/-- Evaluation of an expressionless Go `switch` over a list of cases: the body of the
first case whose guard is true runs; when no guard is true the value set before the
switch (the misc meters) stays. -/
def firstMatch : List (Bool × Category) → Category
  | [] => Category.misc
  | (g, c) :: rs => if g then c else firstMatch rs

/-! ## Shared lemmas -/

/-- The conversion `int64(msg.Size)` of a `uint32` size is the size itself. -/
theorem int64_size (msg : p2p.Msg) : int64 msg.Size = (msg.Size : Int) := by
  have h := msg.size_lt
  unfold int64
  norm_num at h ⊢
  omega

/-- The registered name of a packets meter spells its category and direction. -/
theorem name_packetsMeter (d : Direction) (c : Category) :
    (packetsMeter d c).name = "pbf/" ++ c.path ++ "/" ++ d.path ++ "/packets" := by
  cases d <;> cases c <;> decide

/-- The registered name of a traffic meter spells its category and direction. -/
theorem name_trafficMeter (d : Direction) (c : Category) :
    (trafficMeter d c).name = "pbf/" ++ c.path ++ "/" ++ d.path ++ "/traffic" := by
  cases d <;> cases c <;> decide

/-- No packets meter is a traffic meter. -/
theorem packetsMeter_ne_trafficMeter (d d2 : Direction) (c c2 : Category) :
    packetsMeter d c ≠ trafficMeter d2 c2 := by
  cases d <;> cases d2 <;> cases c <;> cases c2 <;> decide

/-- Different directions or categories have different packets meters. -/
theorem packetsMeter_inj (d d2 : Direction) (c c2 : Category)
    (h : packetsMeter d c = packetsMeter d2 c2) : d = d2 ∧ c = c2 := by
  revert h
  cases d <;> cases d2 <;> cases c <;> cases c2 <;> decide

/-- Different directions or categories have different traffic meters. -/
theorem trafficMeter_inj (d d2 : Direction) (c c2 : Category)
    (h : trafficMeter d c = trafficMeter d2 c2) : d = d2 ∧ c = c2 := by
  revert h
  cases d <;> cases d2 <;> cases c <;> cases c2 <;> decide


/-- The switch of `ReadMsg` selects the two meters of the resolved category. -/
theorem switch_In (K : Protocol) (version : Int) (code : Nat) :
    (if version < K.pbf62 ∧ code = K.BlockHashesMsg then
        (reqHashInPacketsMeter, reqHashInTrafficMeter)
      else if version < K.pbf62 ∧ code = K.BlocksMsg then
        (reqBlockInPacketsMeter, reqBlockInTrafficMeter)
      else if version ≥ K.pbf62 ∧ code = K.BlockHeadersMsg then
        (reqHeaderInPacketsMeter, reqHeaderInTrafficMeter)
      else if version ≥ K.pbf62 ∧ code = K.BlockBodiesMsg then
        (reqBodyInPacketsMeter, reqBodyInTrafficMeter)
      else if version ≥ K.pbf63 ∧ code = K.NodeDataMsg then
        (reqStateInPacketsMeter, reqStateInTrafficMeter)
      else if version ≥ K.pbf63 ∧ code = K.ReceiptsMsg then
        (reqReceiptInPacketsMeter, reqReceiptInTrafficMeter)
      else if code = K.NewBlockHashesMsg then
        (propHashInPacketsMeter, propHashInTrafficMeter)
      else if code = K.NewBlockMsg then
        (propBlockInPacketsMeter, propBlockInTrafficMeter)
      else if code = K.TxMsg then
        (propTxnInPacketsMeter, propTxnInTrafficMeter)
      else 
        (miscInPacketsMeter, miscInTrafficMeter)) =
    (packetsMeter Direction.In (resolve K version code),
     trafficMeter Direction.In (resolve K version code)) := by
  unfold resolve
  by_cases h1 : version < K.pbf62 ∧ code = K.BlockHashesMsg
  · simp only [if_pos h1]
    rfl
  by_cases h2 : version < K.pbf62 ∧ code = K.BlocksMsg
  · simp only [if_neg h1, if_pos h2]
    rfl
  by_cases h3 : version ≥ K.pbf62 ∧ code = K.BlockHeadersMsg
  · simp only [if_neg h1, if_neg h2, if_pos h3]
    rfl
  by_cases h4 : version ≥ K.pbf62 ∧ code = K.BlockBodiesMsg
  · simp only [if_neg h1, if_neg h2, if_neg h3, if_pos h4]
    rfl
  by_cases h5 : version ≥ K.pbf63 ∧ code = K.NodeDataMsg
  · simp only [if_neg h1, if_neg h2, if_neg h3, if_neg h4, if_pos h5]
    rfl
  by_cases h6 : version ≥ K.pbf63 ∧ code = K.ReceiptsMsg
  · simp only [if_neg h1, if_neg h2, if_neg h3, if_neg h4, if_neg h5, if_pos h6]
    rfl
  by_cases h7 : code = K.NewBlockHashesMsg
  · simp only [if_neg h1, if_neg h2, if_neg h3, if_neg h4, if_neg h5, if_neg h6, if_pos h7]
    rfl
  by_cases h8 : code = K.NewBlockMsg
  · simp only [if_neg h1, if_neg h2, if_neg h3, if_neg h4, if_neg h5, if_neg h6, if_neg h7, if_pos h8]
    rfl
  by_cases h9 : code = K.TxMsg
  · simp only [if_neg h1, if_neg h2, if_neg h3, if_neg h4, if_neg h5, if_neg h6, if_neg h7, if_neg h8, if_pos h9]
    rfl
  simp only [if_neg h1, if_neg h2, if_neg h3, if_neg h4, if_neg h5, if_neg h6, if_neg h7, if_neg h8, if_neg h9]
  rfl

/-- The switch of `WriteMsg` selects the two meters of the resolved category. -/
theorem switch_Out (K : Protocol) (version : Int) (code : Nat) :
    (if version < K.pbf62 ∧ code = K.BlockHashesMsg then
        (reqHashOutPacketsMeter, reqHashOutTrafficMeter)
      else if version < K.pbf62 ∧ code = K.BlocksMsg then
        (reqBlockOutPacketsMeter, reqBlockOutTrafficMeter)
      else if version ≥ K.pbf62 ∧ code = K.BlockHeadersMsg then
        (reqHeaderOutPacketsMeter, reqHeaderOutTrafficMeter)
      else if version ≥ K.pbf62 ∧ code = K.BlockBodiesMsg then
        (reqBodyOutPacketsMeter, reqBodyOutTrafficMeter)
      else if version ≥ K.pbf63 ∧ code = K.NodeDataMsg then
        (reqStateOutPacketsMeter, reqStateOutTrafficMeter)
      else if version ≥ K.pbf63 ∧ code = K.ReceiptsMsg then
        (reqReceiptOutPacketsMeter, reqReceiptOutTrafficMeter)
      else if code = K.NewBlockHashesMsg then
        (propHashOutPacketsMeter, propHashOutTrafficMeter)
      else if code = K.NewBlockMsg then
        (propBlockOutPacketsMeter, propBlockOutTrafficMeter)
      else if code = K.TxMsg then
        (propTxnOutPacketsMeter, propTxnOutTrafficMeter)
      else 
        (miscOutPacketsMeter, miscOutTrafficMeter)) =
    (packetsMeter Direction.Out (resolve K version code),
     trafficMeter Direction.Out (resolve K version code)) := by
  unfold resolve
  by_cases h1 : version < K.pbf62 ∧ code = K.BlockHashesMsg
  · simp only [if_pos h1]
    rfl
  by_cases h2 : version < K.pbf62 ∧ code = K.BlocksMsg
  · simp only [if_neg h1, if_pos h2]
    rfl
  by_cases h3 : version ≥ K.pbf62 ∧ code = K.BlockHeadersMsg
  · simp only [if_neg h1, if_neg h2, if_pos h3]
    rfl
  by_cases h4 : version ≥ K.pbf62 ∧ code = K.BlockBodiesMsg
  · simp only [if_neg h1, if_neg h2, if_neg h3, if_pos h4]
    rfl
  by_cases h5 : version ≥ K.pbf63 ∧ code = K.NodeDataMsg
  · simp only [if_neg h1, if_neg h2, if_neg h3, if_neg h4, if_pos h5]
    rfl
  by_cases h6 : version ≥ K.pbf63 ∧ code = K.ReceiptsMsg
  · simp only [if_neg h1, if_neg h2, if_neg h3, if_neg h4, if_neg h5, if_pos h6]
    rfl
  by_cases h7 : code = K.NewBlockHashesMsg
  · simp only [if_neg h1, if_neg h2, if_neg h3, if_neg h4, if_neg h5, if_neg h6, if_pos h7]
    rfl
  by_cases h8 : code = K.NewBlockMsg
  · simp only [if_neg h1, if_neg h2, if_neg h3, if_neg h4, if_neg h5, if_neg h6, if_neg h7, if_pos h8]
    rfl
  by_cases h9 : code = K.TxMsg
  · simp only [if_neg h1, if_neg h2, if_neg h3, if_neg h4, if_neg h5, if_neg h6, if_neg h7, if_neg h8, if_pos h9]
    rfl
  simp only [if_neg h1, if_neg h2, if_neg h3, if_neg h4, if_neg h5, if_neg h6, if_neg h7, if_neg h8, if_neg h9]
  rfl

/-- What `ReadMsg` does, by cases on the error of the wrapped stream. -/
theorem ReadMsg_eq {σ : Type} (K : Protocol) (rw : meteredMsgReadWriter σ) (e : Env) :
    rw.ReadMsg K e =
      (rw.MsgReadWriter.ReadMsg.1,
       { rw with MsgReadWriter := rw.MsgReadWriter.ReadMsg.2 },
       if rw.MsgReadWriter.ReadMsg.1.2 ≠ none then e.call Call.ReadMsg
       else counted Direction.In (resolve K rw.version rw.MsgReadWriter.ReadMsg.1.1.Code)
              rw.MsgReadWriter.ReadMsg.1.1.Size (e.call Call.ReadMsg)) := by
  unfold meteredMsgReadWriter.ReadMsg counted
  simp only [switch_In, int64_size]
  by_cases h : rw.MsgReadWriter.ReadMsg.1.2 = none
  · simp only [h, ne_eq, not_true_eq_false, if_false]
    rw [← h]
  · simp only [ne_eq, h, not_false_eq_true, if_true]

/-- What `WriteMsg` does. -/
theorem WriteMsg_eq {σ : Type} (K : Protocol) (rw : meteredMsgReadWriter σ) (msg : p2p.Msg)
    (e : Env) :
    rw.WriteMsg K msg e =
      ((rw.MsgReadWriter.WriteMsg msg).1,
       { rw with MsgReadWriter := (rw.MsgReadWriter.WriteMsg msg).2 },
       (counted Direction.Out (resolve K rw.version msg.Code) msg.Size e).call
          (Call.WriteMsg msg)) := by
  unfold meteredMsgReadWriter.WriteMsg counted
  simp only [switch_Out, int64_size]

/-- Recording a call leaves the counts alone. -/
theorem count_call (e : Env) (c : Call) : (e.call c).count = e.count := rfl

/-- Recording a call appends it to the calls made. -/
theorem calls_call (e : Env) (c : Call) : (e.call c).calls = e.calls ++ [c] := rfl

/-- The counts after a message was counted under a category. -/
theorem count_counted (d : Direction) (c : Category) (size : Nat) (e : Env) (k : Meter) :
    (counted d c size e).count k =
      e.count k + (if k = packetsMeter d c then 1 else 0)
        + (if k = trafficMeter d c then (size : Int) else 0) := by
  have hne := packetsMeter_ne_trafficMeter d d c c
  unfold counted Meter.Mark
  by_cases h1 : k = packetsMeter d c
  · have h2 : ¬ k = trafficMeter d c := fun h => hne (h1.symm.trans h)
    simp only [if_pos h1, if_neg h2]
    omega
  · by_cases h2 : k = trafficMeter d c
    · simp only [if_neg h1, if_pos h2]
      omega
    · simp only [if_neg h1, if_neg h2]
      omega

/-- The calls made when a message is counted under a category. -/
theorem calls_counted (d : Direction) (c : Category) (size : Nat) (e : Env) :
    (counted d c size e).calls =
      e.calls ++ [Call.Mark (packetsMeter d c) 1, Call.Mark (trafficMeter d c) size] := by
  unfold counted Meter.Mark
  simp

/-- Counting under two categories gives two different meter states. -/
theorem counted_count_inj (d : Direction) (c c2 : Category) (size size2 : Nat) (e : Env)
    (h : (counted d c size e).count = (counted d c2 size2 e).count) : c = c2 := by
  have h1 := congrFun h (packetsMeter d c)
  rw [count_counted, count_counted] at h1
  have hne := packetsMeter_ne_trafficMeter d d c c
  have hne2 := packetsMeter_ne_trafficMeter d d c c2
  simp only [if_true, if_neg hne, if_neg hne2] at h1
  by_cases hc : packetsMeter d c = packetsMeter d c2
  · exact (packetsMeter_inj d d c c2 hc).2
  · simp only [if_neg hc] at h1
    omega

/-- A mark moves the sum over a list of meters by its value, once per occurrence of the meter. -/
theorem total_Mark (m : Meter) (n : Int) (e : Env) (ms : List Meter) :
    (m.Mark n e).total ms = e.total ms + n * (ms.count m : Int) := by
  induction ms with
  | nil => simp [Env.total]
  | cons a as ih =>
    unfold Env.total at ih ⊢
    rw [List.map_cons, List.sum_cons, List.map_cons, List.sum_cons, ih, List.count_cons]
    by_cases h : a = m
    · subst h
      simp [Meter.Mark]
      ring
    · simp [Meter.Mark, h]
      ring

/-- Recording a call leaves every sum of counts alone. -/
theorem total_call (e : Env) (c : Call) (ms : List Meter) : (e.call c).total ms = e.total ms := rfl

/-- Each packets meter occurs once among the packets meters of its direction, and no traffic meter does. -/
theorem count_packetsMeters (d d2 : Direction) (c : Category) :
    (packetsMeters d2).count (packetsMeter d c) = (if d = d2 then 1 else 0) ∧
    (packetsMeters d2).count (trafficMeter d c) = 0 := by
  cases d <;> cases d2 <;> cases c <;> exact ⟨rfl, rfl⟩

/-- Each traffic meter occurs once among the traffic meters of its direction, and no packets meter does. -/
theorem count_trafficMeters (d d2 : Direction) (c : Category) :
    (trafficMeters d2).count (trafficMeter d c) = (if d = d2 then 1 else 0) ∧
    (trafficMeters d2).count (packetsMeter d c) = 0 := by
  cases d <;> cases d2 <;> cases c <;> exact ⟨rfl, rfl⟩

/-- Counting a message moves the packets sum of its direction by one. -/
theorem total_counted_packets (d d2 : Direction) (c : Category) (size : Nat) (e : Env) :
    (counted d c size e).total (packetsMeters d2) =
      e.total (packetsMeters d2) + (if d = d2 then 1 else 0) := by
  unfold counted
  rw [total_Mark, total_Mark, (count_packetsMeters d d2 c).1, (count_packetsMeters d d2 c).2]
  by_cases h : d = d2
  · simp [h]
  · simp [h]

/-- Counting a message moves the traffic sum of its direction by its size. -/
theorem total_counted_traffic (d d2 : Direction) (c : Category) (size : Nat) (e : Env) :
    (counted d c size e).total (trafficMeters d2) =
      e.total (trafficMeters d2) + (if d = d2 then (size : Int) else 0) := by
  unfold counted
  rw [total_Mark, total_Mark, (count_trafficMeters d d2 c).1, (count_trafficMeters d d2 c).2]
  by_cases h : d = d2
  · simp [h]
  · simp [h]

/-- When no case guard holds, the switch leaves the misc default in place. -/
theorem resolve_misc (K : Protocol) (version : Int) (code : Nat)
    (hg : ∀ g ∈ caseGuards K version code, g = false) :
    resolve K version code = Category.misc := by
  simp only [caseGuards, List.mem_cons, List.mem_singleton, forall_eq_or_imp, forall_eq,
    decide_eq_false_iff_not, List.not_mem_nil, IsEmpty.forall_iff, implies_true, and_true] at hg
  obtain ⟨h1, h2, h3, h4, h5, h6, h7, h8, h9⟩ := hg
  unfold resolve
  simp only [if_neg h1, if_neg h2, if_neg h3, if_neg h4, if_neg h5, if_neg h6, if_neg h7,
    if_neg h8, if_neg h9]

/-- The package state after a successful `ReadMsg`. -/
theorem ReadMsg_env_ok {σ : Type} (K : Protocol) (rw : meteredMsgReadWriter σ) (e : Env)
    (msg : p2p.Msg) (h : rw.MsgReadWriter.ReadMsg.1 = (msg, none)) :
    (rw.ReadMsg K e).2.2 =
      counted Direction.In (resolve K rw.version msg.Code) msg.Size (e.call Call.ReadMsg) := by
  rw [ReadMsg_eq]
  simp only [h, ne_eq, not_true_eq_false, if_false]

/-- The package state after a failed `ReadMsg`. -/
theorem ReadMsg_env_err {σ : Type} (K : Protocol) (rw : meteredMsgReadWriter σ) (e : Env)
    (h : rw.MsgReadWriter.ReadMsg.1.2 ≠ none) :
    (rw.ReadMsg K e).2.2 = e.call Call.ReadMsg := by
  rw [ReadMsg_eq]
  simp only [h, ne_eq, not_false_eq_true, if_true]

/-- The package state after `WriteMsg`. -/
theorem WriteMsg_env {σ : Type} (K : Protocol) (rw : meteredMsgReadWriter σ) (msg : p2p.Msg)
    (e : Env) :
    (rw.WriteMsg K msg e).2.2 =
      (counted Direction.Out (resolve K rw.version msg.Code) msg.Size e).call
        (Call.WriteMsg msg) := by
  rw [WriteMsg_eq]

/-! ## The claims -/

/-- C1 (classification is total, with a per-direction misc fallback): for every constant
table, bound version and message, a successful `ReadMsg` makes, after the call to the
wrapped stream, exactly two `Mark` calls, on the inbound packets meter (by 1) and the
inbound traffic meter (by `msg.Size`) of one and the same category; that category is
unique, every meter's count moves by exactly these two marks (so no other meter
changes), and the category is misc when none of the nine case guards holds.  `WriteMsg`
does the same on the outbound meters for every message.  The misc meters are those
registered as `pbf/misc/in/*` and `pbf/misc/out/*`. -/
theorem C1_classification_total {σ : Type} (K : Protocol) (rw : meteredMsgReadWriter σ)
    (msg : p2p.Msg) (e : Env) :
    (rw.MsgReadWriter.ReadMsg.1.2 = none →
      ∃! c : Category,
        (rw.ReadMsg K e).2.2.calls =
          e.calls ++ [Call.ReadMsg, Call.Mark (packetsMeter Direction.In c) 1,
            Call.Mark (trafficMeter Direction.In c) rw.MsgReadWriter.ReadMsg.1.1.Size] ∧
        (∀ k : Meter, (rw.ReadMsg K e).2.2.count k =
          e.count k + (if k = packetsMeter Direction.In c then 1 else 0)
            + (if k = trafficMeter Direction.In c
                then (rw.MsgReadWriter.ReadMsg.1.1.Size : Int) else 0)) ∧
        ((∀ g ∈ caseGuards K rw.version rw.MsgReadWriter.ReadMsg.1.1.Code, g = false) →
          c = Category.misc)) ∧
    (∃! c : Category,
        (rw.WriteMsg K msg e).2.2.calls =
          e.calls ++ [Call.Mark (packetsMeter Direction.Out c) 1,
            Call.Mark (trafficMeter Direction.Out c) msg.Size, Call.WriteMsg msg] ∧
        (∀ k : Meter, (rw.WriteMsg K msg e).2.2.count k =
          e.count k + (if k = packetsMeter Direction.Out c then 1 else 0)
            + (if k = trafficMeter Direction.Out c then (msg.Size : Int) else 0)) ∧
        ((∀ g ∈ caseGuards K rw.version msg.Code, g = false) → c = Category.misc)) ∧
    (miscInPacketsMeter.name = "pbf/misc/in/packets" ∧
      miscInTrafficMeter.name = "pbf/misc/in/traffic" ∧
      miscOutPacketsMeter.name = "pbf/misc/out/packets" ∧
      miscOutTrafficMeter.name = "pbf/misc/out/traffic") := by
  refine ⟨fun herr => ?_, ?_, rfl, rfl, rfl, rfl⟩
  · refine ⟨resolve K rw.version rw.MsgReadWriter.ReadMsg.1.1.Code, ⟨?_, ?_, ?_⟩, ?_⟩
    · rw [ReadMsg_eq]
      simp only [herr, ne_eq, not_true_eq_false, if_false, calls_counted, calls_call,
        List.append_assoc, List.singleton_append]
    · intro k
      rw [ReadMsg_eq]
      simp only [herr, ne_eq, not_true_eq_false, if_false, count_counted, count_call]
    · intro hg
      exact resolve_misc K _ _ hg
    · rintro c2 ⟨h1, -, -⟩
      rw [ReadMsg_eq] at h1
      simp only [herr, ne_eq, not_true_eq_false, if_false, calls_counted, calls_call,
        List.append_assoc, List.singleton_append] at h1
      have h2 := List.append_cancel_left h1
      simp only [List.cons.injEq, Call.Mark.injEq, and_true, true_and] at h2
      exact ((packetsMeter_inj _ _ _ _ h2.1).2).symm
  · refine ⟨resolve K rw.version msg.Code, ⟨?_, ?_, ?_⟩, ?_⟩
    · rw [WriteMsg_eq]
      simp only [calls_counted, calls_call, List.append_assoc, List.cons_append,
        List.nil_append]
    · intro k
      rw [WriteMsg_eq]
      simp only [count_counted, count_call]
    · intro hg
      exact resolve_misc K _ _ hg
    · rintro c2 ⟨h1, -, -⟩
      rw [WriteMsg_eq] at h1
      simp only [calls_counted, calls_call, List.append_assoc, List.cons_append,
        List.nil_append] at h1
      have h2 := List.append_cancel_left h1
      simp only [List.cons.injEq, Call.Mark.injEq, and_true, true_and] at h2
      exact ((packetsMeter_inj _ _ _ _ h2.1).2).symm

/-- Witness of C1: a stream bound to version 61 reads a message with code 0x04 and size
100 successfully; the message is counted under exactly one category. -/
theorem C1_classification_total_witness :
    (meteredStream 61 [mkMsg 4 100]).MsgReadWriter.ReadMsg.1.2 = none ∧
    ∃! c : Category,
      ((meteredStream 61 [mkMsg 4 100]).ReadMsg pbfProtocol Env.init).2.2.calls =
        Env.init.calls ++ [Call.ReadMsg, Call.Mark (packetsMeter Direction.In c) 1,
          Call.Mark (trafficMeter Direction.In c)
            (meteredStream 61 [mkMsg 4 100]).MsgReadWriter.ReadMsg.1.1.Size] ∧
      (∀ k : Meter, ((meteredStream 61 [mkMsg 4 100]).ReadMsg pbfProtocol Env.init).2.2.count k =
        Env.init.count k + (if k = packetsMeter Direction.In c then 1 else 0)
          + (if k = trafficMeter Direction.In c
              then ((meteredStream 61 [mkMsg 4 100]).MsgReadWriter.ReadMsg.1.1.Size : Int)
              else 0)) ∧
      ((∀ g ∈ caseGuards pbfProtocol (meteredStream 61 [mkMsg 4 100]).version
          (meteredStream 61 [mkMsg 4 100]).MsgReadWriter.ReadMsg.1.1.Code, g = false) →
        c = Category.misc) :=
  ⟨rfl, (C1_classification_total pbfProtocol (meteredStream 61 [mkMsg 4 100]) (mkMsg 16 7)
    Env.init).1 rfl⟩

/-- Below `pbf62` the code `BlockHashesMsg` resolves to req/hashes. -/
theorem resolve_old_hashes (K : Protocol) (v : Int) (h : v < K.pbf62) :
    resolve K v K.BlockHashesMsg = Category.reqHash := by
  unfold resolve
  rw [if_pos ⟨h, rfl⟩]

/-- Below `pbf62` the code `BlocksMsg` resolves to req/blocks. -/
theorem resolve_old_blocks (K : Protocol) (v : Int) (h : v < K.pbf62)
    (hne : K.BlockHashesMsg ≠ K.BlocksMsg) :
    resolve K v K.BlocksMsg = Category.reqBlock := by
  unfold resolve
  rw [if_neg (fun h1 => hne h1.2.symm), if_pos ⟨h, rfl⟩]

/-- From `pbf62` on the code `BlockHeadersMsg` resolves to req/headers. -/
theorem resolve_new_headers (K : Protocol) (v : Int) (h : v ≥ K.pbf62) :
    resolve K v K.BlockHeadersMsg = Category.reqHeader := by
  unfold resolve
  rw [if_neg (fun h1 => absurd h1.1 (not_lt.mpr h)), if_neg (fun h1 => absurd h1.1 (not_lt.mpr h)),
    if_pos ⟨h, rfl⟩]

/-- From `pbf62` on the code `BlockBodiesMsg` resolves to req/bodies. -/
theorem resolve_new_bodies (K : Protocol) (v : Int) (h : v ≥ K.pbf62)
    (hne : K.BlockHeadersMsg ≠ K.BlockBodiesMsg) :
    resolve K v K.BlockBodiesMsg = Category.reqBody := by
  unfold resolve
  rw [if_neg (fun h1 => absurd h1.1 (not_lt.mpr h)), if_neg (fun h1 => absurd h1.1 (not_lt.mpr h)),
    if_neg (fun h1 => hne h1.2.symm), if_pos ⟨h, rfl⟩]

/-- C2 (version disambiguation): let `BlockHashesMsg` and `BlockHeadersMsg` be the same
code, `BlocksMsg` and `BlockBodiesMsg` the same code, and the two codes differ (0x04 and
0x06 in the protocol's table).  For every version `v_old < pbf62` and `v_new >= pbf62`, a
message with code `BlockHashesMsg` is counted under req/hashes on a stream bound (by
`Init`) to `v_old` and under req/headers on a stream bound to `v_new`; a message with
code `BlocksMsg` is counted under req/blocks for `v_old` and req/bodies for `v_new`; in
the out meters by `WriteMsg` and in the in meters by a successful `ReadMsg`.  Counting
under the two categories of a pair leaves two different meter states. -/
theorem C2_version_disambiguation {σ : Type} (K : Protocol) (rw : meteredMsgReadWriter σ)
    (msg : p2p.Msg) (e : Env) (v_old v_new : Int)
    (hold : v_old < K.pbf62) (hnew : v_new ≥ K.pbf62)
    (hhash : K.BlockHashesMsg = K.BlockHeadersMsg) (hblock : K.BlocksMsg = K.BlockBodiesMsg)
    (hne : K.BlockHashesMsg ≠ K.BlocksMsg) :
    (msg.Code = K.BlockHashesMsg →
      ((rw.Init v_old).WriteMsg K msg e).2.2 =
        (counted Direction.Out Category.reqHash msg.Size e).call (Call.WriteMsg msg) ∧
      ((rw.Init v_new).WriteMsg K msg e).2.2 =
        (counted Direction.Out Category.reqHeader msg.Size e).call (Call.WriteMsg msg) ∧
      (rw.MsgReadWriter.ReadMsg.1 = (msg, none) →
        ((rw.Init v_old).ReadMsg K e).2.2 =
          counted Direction.In Category.reqHash msg.Size (e.call Call.ReadMsg) ∧
        ((rw.Init v_new).ReadMsg K e).2.2 =
          counted Direction.In Category.reqHeader msg.Size (e.call Call.ReadMsg))) ∧
    (msg.Code = K.BlocksMsg →
      ((rw.Init v_old).WriteMsg K msg e).2.2 =
        (counted Direction.Out Category.reqBlock msg.Size e).call (Call.WriteMsg msg) ∧
      ((rw.Init v_new).WriteMsg K msg e).2.2 =
        (counted Direction.Out Category.reqBody msg.Size e).call (Call.WriteMsg msg) ∧
      (rw.MsgReadWriter.ReadMsg.1 = (msg, none) →
        ((rw.Init v_old).ReadMsg K e).2.2 =
          counted Direction.In Category.reqBlock msg.Size (e.call Call.ReadMsg) ∧
        ((rw.Init v_new).ReadMsg K e).2.2 =
          counted Direction.In Category.reqBody msg.Size (e.call Call.ReadMsg))) ∧
    (∀ (d : Direction) (e0 : Env),
      (counted d Category.reqHash msg.Size e0).count ≠
        (counted d Category.reqHeader msg.Size e0).count ∧
      (counted d Category.reqBlock msg.Size e0).count ≠
        (counted d Category.reqBody msg.Size e0).count) := by
  have hne2 : K.BlockHeadersMsg ≠ K.BlockBodiesMsg := by
    rw [← hhash, ← hblock]
    exact hne
  refine ⟨fun hc => ⟨?_, ?_, fun hr => ⟨?_, ?_⟩⟩, fun hc => ⟨?_, ?_, fun hr => ⟨?_, ?_⟩⟩,
    fun d e0 => ⟨fun h => ?_, fun h => ?_⟩⟩
  · rw [WriteMsg_env, hc]
    exact congrArg (fun c => (counted Direction.Out c msg.Size e).call (Call.WriteMsg msg))
      (resolve_old_hashes K v_old hold)
  · rw [WriteMsg_env, hc, hhash]
    exact congrArg (fun c => (counted Direction.Out c msg.Size e).call (Call.WriteMsg msg))
      (resolve_new_headers K v_new hnew)
  · rw [ReadMsg_env_ok K (rw.Init v_old) e msg hr, hc]
    exact congrArg (fun c => counted Direction.In c msg.Size (e.call Call.ReadMsg))
      (resolve_old_hashes K v_old hold)
  · rw [ReadMsg_env_ok K (rw.Init v_new) e msg hr, hc, hhash]
    exact congrArg (fun c => counted Direction.In c msg.Size (e.call Call.ReadMsg))
      (resolve_new_headers K v_new hnew)
  · rw [WriteMsg_env, hc]
    exact congrArg (fun c => (counted Direction.Out c msg.Size e).call (Call.WriteMsg msg))
      (resolve_old_blocks K v_old hold hne)
  · rw [WriteMsg_env, hc, hblock]
    exact congrArg (fun c => (counted Direction.Out c msg.Size e).call (Call.WriteMsg msg))
      (resolve_new_bodies K v_new hnew hne2)
  · rw [ReadMsg_env_ok K (rw.Init v_old) e msg hr, hc]
    exact congrArg (fun c => counted Direction.In c msg.Size (e.call Call.ReadMsg))
      (resolve_old_blocks K v_old hold hne)
  · rw [ReadMsg_env_ok K (rw.Init v_new) e msg hr, hc, hblock]
    exact congrArg (fun c => counted Direction.In c msg.Size (e.call Call.ReadMsg))
      (resolve_new_bodies K v_new hnew hne2)
  · exact absurd (counted_count_inj d _ _ _ _ e0 h) (by decide)
  · exact absurd (counted_count_inj d _ _ _ _ e0 h) (by decide)

/-- Witness of C2: with the protocol table, a message with code 0x04 and size 100 read
on a stream bound to version 61 is counted under req/hashes, and under req/headers on a
stream bound to version 63. -/
theorem C2_version_disambiguation_witness :
    ((61 : Int) < pbfProtocol.pbf62 ∧ (63 : Int) ≥ pbfProtocol.pbf62 ∧
      pbfProtocol.BlockHashesMsg = pbfProtocol.BlockHeadersMsg ∧
      pbfProtocol.BlocksMsg = pbfProtocol.BlockBodiesMsg ∧
      pbfProtocol.BlockHashesMsg ≠ pbfProtocol.BlocksMsg ∧
      (mkMsg 4 100).Code = pbfProtocol.BlockHashesMsg ∧
      (meteredStream 0 [mkMsg 4 100]).MsgReadWriter.ReadMsg.1 = (mkMsg 4 100, none)) ∧
    ((((meteredStream 0 [mkMsg 4 100]).Init 61).ReadMsg pbfProtocol Env.init).2.2 =
        counted Direction.In Category.reqHash 100 (Env.init.call Call.ReadMsg) ∧
     (((meteredStream 0 [mkMsg 4 100]).Init 63).ReadMsg pbfProtocol Env.init).2.2 =
        counted Direction.In Category.reqHeader 100 (Env.init.call Call.ReadMsg)) :=
  ⟨⟨by decide, by decide, rfl, rfl, by decide, rfl, rfl⟩,
   ((C2_version_disambiguation pbfProtocol (meteredStream 0 [mkMsg 4 100]) (mkMsg 4 100)
      Env.init 61 63 (by decide) (by decide) rfl rfl (by decide)).1 rfl).2.2 rfl⟩

/-- The number of successful reads is additive over the results. -/
theorem successfulReads_cons (r : Result) (rs : List Result) :
    successfulReads (r :: rs) = successfulReads [r] + successfulReads rs := by
  cases r with
  | ReadMsg msg err =>
    cases err with
    | none => simp [successfulReads]; omega
    | some s => simp [successfulReads]
  | WriteMsg err => simp [successfulReads]
  | Init => simp [successfulReads]

/-- The bytes read are additive over the results. -/
theorem bytesRead_cons (r : Result) (rs : List Result) :
    bytesRead (r :: rs) = bytesRead [r] + bytesRead rs := by
  cases r with
  | ReadMsg msg err =>
    cases err with
    | none => simp [bytesRead]
    | some s => simp [bytesRead]
  | WriteMsg err => simp [bytesRead]
  | Init => simp [bytesRead]

/-- The bytes written are additive over the calls. -/
theorem bytesWritten_cons (op : Op) (ops : List Op) :
    bytesWritten (op :: ops) = bytesWritten [op] + bytesWritten ops := by
  cases op <;> simp [bytesWritten]

/-- One call moves the sum of the packets meters of a direction by one exactly when it
is a successful read (inbound) or a write (outbound), and the sum of the traffic meters
by the size of that message. -/
theorem step_totals {σ : Type} (K : Protocol) (n : Node σ) (op : Op) :
    (n.step K op).2.env.total (packetsMeters Direction.In) =
      n.env.total (packetsMeters Direction.In) + (successfulReads [(n.step K op).1] : Int) ∧
    (n.step K op).2.env.total (trafficMeters Direction.In) =
      n.env.total (trafficMeters Direction.In) + bytesRead [(n.step K op).1] ∧
    (n.step K op).2.env.total (trafficMeters Direction.Out) =
      n.env.total (trafficMeters Direction.Out) + bytesWritten [op] := by
  cases op with
  | ReadMsg i =>
    simp only [Node.step, bytesWritten, add_zero]
    rw [ReadMsg_eq]
    simp only []
    cases herr : (n.streams i).MsgReadWriter.ReadMsg.1.2 with
    | none =>
      simp only [ne_eq, not_true_eq_false, if_false, successfulReads, bytesRead,
        total_counted_packets, total_counted_traffic, total_call, if_true]
      simp
    | some s =>
      simp only [ne_eq, reduceCtorEq, not_false_eq_true, if_true, successfulReads, bytesRead,
        total_call]
      simp
  | WriteMsg i msg =>
    simp only [Node.step, bytesWritten, add_zero, successfulReads, bytesRead]
    rw [WriteMsg_eq]
    simp only [total_call, total_counted_packets, total_counted_traffic]
    simp
  | Init i version =>
    simp [Node.step, bytesWritten, successfulReads, bytesRead]

/-- C3 (count conservation): from any node state (any meter counts, any streams) and
for any sequence of `ReadMsg`, `WriteMsg` and `Init` calls on its metered streams, the
sum of the counts of the ten inbound packets meters grows by exactly the number of
`ReadMsg` calls that succeeded; failed reads, writes and `Init` add nothing to it. -/
theorem C3_count_conservation {σ : Type} (K : Protocol) (n : Node σ) (ops : List Op) :
    (n.run K ops).2.env.total (packetsMeters Direction.In) =
      n.env.total (packetsMeters Direction.In) + (successfulReads (n.run K ops).1 : Int) := by
  induction ops generalizing n with
  | nil => simp [Node.run, successfulReads]
  | cons op ops ih =>
    simp only [Node.run]
    rw [ih, (step_totals K n op).1,
      successfulReads_cons (n.step K op).1 ((n.step K op).2.run K ops).1]
    push_cast
    ring

/-- C4 (byte conservation): `int64(msg.Size)`, the value every traffic mark adds, is
non-negative and equal to `msg.Size`; and from any node state, for any sequence of
calls, the sum of the ten inbound traffic meters grows by exactly the sum of `msg.Size`
over the messages returned by successful `ReadMsg` calls, and the sum of the ten
outbound traffic meters by exactly the sum of `msg.Size` over the arguments of all
`WriteMsg` calls, whatever the wrapped stream's write returned. -/
theorem C4_byte_conservation {σ : Type} (K : Protocol) (n : Node σ) (ops : List Op) :
    (∀ msg : p2p.Msg, 0 ≤ int64 msg.Size ∧ int64 msg.Size = (msg.Size : Int)) ∧
    (n.run K ops).2.env.total (trafficMeters Direction.In) =
      n.env.total (trafficMeters Direction.In) + bytesRead (n.run K ops).1 ∧
    (n.run K ops).2.env.total (trafficMeters Direction.Out) =
      n.env.total (trafficMeters Direction.Out) + bytesWritten ops := by
  refine ⟨fun msg => ⟨?_, int64_size msg⟩, ?_, ?_⟩
  · rw [int64_size]
    exact Int.ofNat_nonneg _
  · induction ops generalizing n with
    | nil => simp [Node.run, bytesRead]
    | cons op ops ih =>
      simp only [Node.run]
      rw [ih, (step_totals K n op).2.1,
        bytesRead_cons (n.step K op).1 ((n.step K op).2.run K ops).1]
      ring
  · induction ops generalizing n with
    | nil => simp [Node.run, bytesWritten]
    | cons op ops ih =>
      simp only [Node.run]
      rw [ih, (step_totals K n op).2.2, bytesWritten_cons op ops]
      ring

/-- C5 (write-then-fail accounting): for every message, wrapper and package state,
`WriteMsg` makes its calls in this order: `Mark(1)` on the resolved outbound packets
meter, `Mark(msg.Size)` on the resolved outbound traffic meter, then the wrapped
stream's `WriteMsg(msg)`; afterwards the two meters stand incremented by 1 and by
`msg.Size`, whatever the wrapped stream returned, and the error returned is exactly the
wrapped stream's (in particular when that write failed). -/
theorem C5_write_then_fail {σ : Type} (K : Protocol) (rw : meteredMsgReadWriter σ)
    (msg : p2p.Msg) (e : Env) :
    (rw.WriteMsg K msg e).2.2.calls =
      e.calls ++ [Call.Mark (packetsMeter Direction.Out (resolve K rw.version msg.Code)) 1,
        Call.Mark (trafficMeter Direction.Out (resolve K rw.version msg.Code)) msg.Size,
        Call.WriteMsg msg] ∧
    (rw.WriteMsg K msg e).2.2.count (packetsMeter Direction.Out (resolve K rw.version msg.Code)) =
      e.count (packetsMeter Direction.Out (resolve K rw.version msg.Code)) + 1 ∧
    (rw.WriteMsg K msg e).2.2.count (trafficMeter Direction.Out (resolve K rw.version msg.Code)) =
      e.count (trafficMeter Direction.Out (resolve K rw.version msg.Code)) + msg.Size ∧
    (rw.WriteMsg K msg e).1 = (rw.MsgReadWriter.WriteMsg msg).1 ∧
    ((rw.MsgReadWriter.WriteMsg msg).1 ≠ none →
      (rw.WriteMsg K msg e).1 ≠ none ∧
      (rw.WriteMsg K msg e).2.2.count =
        (counted Direction.Out (resolve K rw.version msg.Code) msg.Size e).count) := by
  have hne := packetsMeter_ne_trafficMeter Direction.Out Direction.Out
    (resolve K rw.version msg.Code) (resolve K rw.version msg.Code)
  refine ⟨?_, ?_, ?_, ?_, fun h => ⟨?_, ?_⟩⟩
  · rw [WriteMsg_env]
    simp only [calls_counted, calls_call, List.append_assoc, List.cons_append, List.nil_append]
  · rw [WriteMsg_env, count_call, count_counted]
    simp only [if_true, if_neg hne, add_zero]
  · rw [WriteMsg_env, count_call, count_counted]
    simp only [if_true, if_neg (Ne.symm hne), add_zero]
  · rw [WriteMsg_eq]
  · rw [WriteMsg_eq]
    exact h
  · rw [WriteMsg_env, count_call]

/-- Witness of C5: writing a message of 2000 bytes with code 0x10 fails in the wrapped
test stream; the wrapper returns an error and the outbound meters are incremented. -/
theorem C5_write_then_fail_witness :
    ((meteredStream 63 []).MsgReadWriter.WriteMsg (mkMsg 16 2000)).1 ≠ none ∧
    ((meteredStream 63 []).WriteMsg pbfProtocol (mkMsg 16 2000) Env.init).1 ≠ none ∧
    ((meteredStream 63 []).WriteMsg pbfProtocol (mkMsg 16 2000) Env.init).2.2.count =
      (counted Direction.Out
        (resolve pbfProtocol (meteredStream 63 []).version (mkMsg 16 2000).Code)
        (mkMsg 16 2000).Size Env.init).count :=
  ⟨by decide,
   (C5_write_then_fail pbfProtocol (meteredStream 63 []) (mkMsg 16 2000) Env.init).2.2.2.2
     (by decide)⟩

/-- C6 (failed reads are not metered): whenever the wrapped stream's `ReadMsg` returns a
non-nil error, the wrapper's `ReadMsg` returns that same error together with the wrapped
stream's message value, makes no call other than the one to the wrapped stream, and
leaves the count of every meter, inbound and outbound, unchanged. -/
theorem C6_failed_read_not_metered {σ : Type} (K : Protocol) (rw : meteredMsgReadWriter σ)
    (e : Env) (h : rw.MsgReadWriter.ReadMsg.1.2 ≠ none) :
    (rw.ReadMsg K e).1 = rw.MsgReadWriter.ReadMsg.1 ∧
    (rw.ReadMsg K e).2.2.count = e.count ∧
    (rw.ReadMsg K e).2.2.calls = e.calls ++ [Call.ReadMsg] := by
  refine ⟨?_, ?_, ?_⟩
  · rw [ReadMsg_eq]
  · rw [ReadMsg_env_err K rw e h, count_call]
  · rw [ReadMsg_env_err K rw e h, calls_call]

/-- Witness of C6: reading from an empty test stream fails with `EOF` and no meter moves. -/
theorem C6_failed_read_not_metered_witness :
    (meteredStream 63 []).MsgReadWriter.ReadMsg.1.2 ≠ none ∧
    ((meteredStream 63 []).ReadMsg pbfProtocol Env.init).1 =
      (meteredStream 63 []).MsgReadWriter.ReadMsg.1 ∧
    ((meteredStream 63 []).ReadMsg pbfProtocol Env.init).2.2.count = Env.init.count ∧
    ((meteredStream 63 []).ReadMsg pbfProtocol Env.init).2.2.calls =
      Env.init.calls ++ [Call.ReadMsg] :=
  ⟨by decide, C6_failed_read_not_metered pbfProtocol (meteredStream 63 []) Env.init (by decide)⟩

/-- C7 (disabled passthrough): with `metrics.Enabled` false, `newMeteredMsgWriter(rw)` is
`rw` itself, not a wrapper, for every `rw`; and every sequence of `ReadMsg` and
`WriteMsg` calls on the result returns exactly what the same calls return on `rw`, leaves
the stream in the same state, and leaves the package state (every meter) untouched. -/
theorem C7_disabled_passthrough {σ : Type} (K : Protocol) (rw : p2p.MsgReadWriter σ) :
    newMeteredMsgWriter false rw = Stream.original rw ∧
    ∀ (reqs : List Request) (e : Env),
      Stream.run K (newMeteredMsgWriter false rw) e reqs =
        ((rw.run reqs).1, Stream.original (rw.run reqs).2, e) := by
  refine ⟨rfl, fun reqs e => ?_⟩
  show Stream.run K (Stream.original rw) e reqs = _
  induction reqs generalizing rw with
  | nil => rfl
  | cons r rs ih =>
    cases r with
    | ReadMsg =>
      simp only [Stream.run, Stream.ReadMsg, p2p.MsgReadWriter.run]
      rw [ih]
    | WriteMsg msg =>
      simp only [Stream.run, Stream.WriteMsg, p2p.MsgReadWriter.run]
      rw [ih]

/-- The replies of a metered stream are those of the wrapped stream. -/
theorem run_metered {σ : Type} (K : Protocol) (rw : meteredMsgReadWriter σ) (e : Env)
    (reqs : List Request) :
    (Stream.run K (Stream.metered rw) e reqs).1 = (rw.MsgReadWriter.run reqs).1 := by
  induction reqs generalizing rw e with
  | nil => rfl
  | cons r rs ih =>
    cases r with
    | ReadMsg =>
      simp only [Stream.run, Stream.ReadMsg, p2p.MsgReadWriter.run]
      rw [ih, ReadMsg_eq]
    | WriteMsg msg =>
      simp only [Stream.run, Stream.WriteMsg, p2p.MsgReadWriter.run]
      rw [ih, WriteMsg_eq]

/-- C8 (transparency of the enabled wrapper): for every wrapped stream, bound version,
message and package state, the wrapper's `ReadMsg` returns exactly the (message, error)
pair of the wrapped stream's `ReadMsg`, leaves the wrapped stream as one such call
leaves it, keeps the version, and makes exactly one call to the wrapped stream, a
`ReadMsg`; the wrapper's `WriteMsg` returns exactly the result of the wrapped stream's
`WriteMsg` on the same message, leaves the wrapped stream as one such call leaves it,
and makes exactly one call to the wrapped stream, `WriteMsg(msg)`.  Hence the wrapper
returns an error if and only if the wrapped stream does, and over any sequence of calls
the replies of the wrapper are those of the wrapped stream. -/
theorem C8_transparency {σ : Type} (K : Protocol) (rw : meteredMsgReadWriter σ)
    (msg : p2p.Msg) (e : Env) :
    ((rw.ReadMsg K e).1 = rw.MsgReadWriter.ReadMsg.1 ∧
      (rw.ReadMsg K e).2.1.MsgReadWriter = rw.MsgReadWriter.ReadMsg.2 ∧
      (rw.ReadMsg K e).2.1.version = rw.version ∧
      (rw.ReadMsg K e).2.2.calls.filter Call.onStream =
        e.calls.filter Call.onStream ++ [Call.ReadMsg] ∧
      ((rw.ReadMsg K e).1.2 ≠ none ↔ rw.MsgReadWriter.ReadMsg.1.2 ≠ none)) ∧
    ((rw.WriteMsg K msg e).1 = (rw.MsgReadWriter.WriteMsg msg).1 ∧
      (rw.WriteMsg K msg e).2.1.MsgReadWriter = (rw.MsgReadWriter.WriteMsg msg).2 ∧
      (rw.WriteMsg K msg e).2.1.version = rw.version ∧
      (rw.WriteMsg K msg e).2.2.calls.filter Call.onStream =
        e.calls.filter Call.onStream ++ [Call.WriteMsg msg] ∧
      ((rw.WriteMsg K msg e).1 ≠ none ↔ (rw.MsgReadWriter.WriteMsg msg).1 ≠ none)) ∧
    (∀ reqs : List Request,
      (Stream.run K (Stream.metered rw) e reqs).1 = (rw.MsgReadWriter.run reqs).1) := by
  refine ⟨⟨?_, ?_, ?_, ?_, ?_⟩, ⟨?_, ?_, ?_, ?_, ?_⟩, fun reqs => run_metered K rw e reqs⟩
  · rw [ReadMsg_eq]
  · rw [ReadMsg_eq]
  · rw [ReadMsg_eq]
  · by_cases h : rw.MsgReadWriter.ReadMsg.1.2 = none
    · rw [ReadMsg_eq]
      simp [h, calls_counted, calls_call, List.filter_append, Call.onStream]
    · rw [ReadMsg_env_err K rw e h, calls_call]
      simp [List.filter_append, Call.onStream]
  · rw [ReadMsg_eq]
  · rw [WriteMsg_eq]
  · rw [WriteMsg_eq]
  · rw [WriteMsg_eq]
  · rw [WriteMsg_env]
    simp [calls_counted, calls_call, List.filter_append, Call.onStream]
  · rw [WriteMsg_eq]

/-- The switch on a code that none of the six version-gated guards mentions. -/
theorem resolve_ungated (K : Protocol) (v : Int) (code : Nat)
    (h : code ∉ [K.BlockHashesMsg, K.BlocksMsg, K.BlockHeadersMsg, K.BlockBodiesMsg,
      K.NodeDataMsg, K.ReceiptsMsg]) :
    resolve K v code =
      if code = K.NewBlockHashesMsg then Category.propHash
      else if code = K.NewBlockMsg then Category.propBlock
      else if code = K.TxMsg then Category.propTxn
      else Category.misc := by
  simp only [List.mem_cons, List.mem_singleton, List.not_mem_nil, or_false, not_or] at h
  obtain ⟨h1, h2, h3, h4, h5, h6⟩ := h
  unfold resolve
  rw [if_neg (fun g => h1 g.2), if_neg (fun g => h2 g.2), if_neg (fun g => h3 g.2),
    if_neg (fun g => h4 g.2), if_neg (fun g => h5 g.2), if_neg (fun g => h6 g.2)]

/-- C9 (version-independent rules): let the three codes `NewBlockHashesMsg`,
`NewBlockMsg` and `TxMsg` be pairwise distinct and differ from the six version-gated
codes (0x01, 0x07, 0x02 versus 0x04, 0x06, 0x0e, 0x10 in the protocol's table).  Then for
every bound version whatsoever, a message with code `NewBlockHashesMsg` is counted under
prop/hashes, one with code `NewBlockMsg` under prop/blocks and one with code `TxMsg`
under prop/txns: in the outbound meters by `WriteMsg` and in the inbound meters by a
successful `ReadMsg`.  A wrapper fresh from `newMeteredMsgWriter`, on which `Init` was
never called, has version 0 and is covered. -/
theorem C9_version_independent {σ : Type} (K : Protocol) (rw : meteredMsgReadWriter σ)
    (msg : p2p.Msg) (e : Env)
    (hdistinct : [K.NewBlockHashesMsg, K.NewBlockMsg, K.TxMsg].Nodup)
    (hgated : ∀ code ∈ [K.NewBlockHashesMsg, K.NewBlockMsg, K.TxMsg],
      code ∉ [K.BlockHashesMsg, K.BlocksMsg, K.BlockHeadersMsg, K.BlockBodiesMsg,
        K.NodeDataMsg, K.ReceiptsMsg]) :
    (msg.Code = K.NewBlockHashesMsg →
      (rw.WriteMsg K msg e).2.2 =
        (counted Direction.Out Category.propHash msg.Size e).call (Call.WriteMsg msg) ∧
      (rw.MsgReadWriter.ReadMsg.1 = (msg, none) →
        (rw.ReadMsg K e).2.2 =
          counted Direction.In Category.propHash msg.Size (e.call Call.ReadMsg))) ∧
    (msg.Code = K.NewBlockMsg →
      (rw.WriteMsg K msg e).2.2 =
        (counted Direction.Out Category.propBlock msg.Size e).call (Call.WriteMsg msg) ∧
      (rw.MsgReadWriter.ReadMsg.1 = (msg, none) →
        (rw.ReadMsg K e).2.2 =
          counted Direction.In Category.propBlock msg.Size (e.call Call.ReadMsg))) ∧
    (msg.Code = K.TxMsg →
      (rw.WriteMsg K msg e).2.2 =
        (counted Direction.Out Category.propTxn msg.Size e).call (Call.WriteMsg msg) ∧
      (rw.MsgReadWriter.ReadMsg.1 = (msg, none) →
        (rw.ReadMsg K e).2.2 =
          counted Direction.In Category.propTxn msg.Size (e.call Call.ReadMsg))) ∧
    (∀ inner : p2p.MsgReadWriter σ,
      newMeteredMsgWriter true inner = Stream.metered { MsgReadWriter := inner, version := 0 }) := by
  simp only [List.nodup_cons, List.mem_cons, List.mem_singleton, List.not_mem_nil, or_false,
    not_or, not_false_eq_true, List.nodup_nil, and_true] at hdistinct
  obtain ⟨⟨d1, d2⟩, d3⟩ := hdistinct
  have g1 := hgated K.NewBlockHashesMsg (by simp)
  have g2 := hgated K.NewBlockMsg (by simp)
  have g3 := hgated K.TxMsg (by simp)
  have r1 : resolve K rw.version K.NewBlockHashesMsg = Category.propHash := by
    rw [resolve_ungated K _ _ g1, if_pos rfl]
  have r2 : resolve K rw.version K.NewBlockMsg = Category.propBlock := by
    rw [resolve_ungated K _ _ g2, if_neg (Ne.symm d1), if_pos rfl]
  have r3 : resolve K rw.version K.TxMsg = Category.propTxn := by
    rw [resolve_ungated K _ _ g3, if_neg (Ne.symm d2), if_neg (Ne.symm d3), if_pos rfl]
  refine ⟨fun hc => ⟨?_, fun hr => ?_⟩, fun hc => ⟨?_, fun hr => ?_⟩,
    fun hc => ⟨?_, fun hr => ?_⟩, fun inner => rfl⟩
  · rw [WriteMsg_env, hc, r1]
  · rw [ReadMsg_env_ok K rw e msg hr, hc, r1]
  · rw [WriteMsg_env, hc, r2]
  · rw [ReadMsg_env_ok K rw e msg hr, hc, r2]
  · rw [WriteMsg_env, hc, r3]
  · rw [ReadMsg_env_ok K rw e msg hr, hc, r3]

/-- Witness of C9: with the protocol table, a message with code 0x02 on a stream with
version 0 is counted under prop/txns, written or read. -/
theorem C9_version_independent_witness :
    ([pbfProtocol.NewBlockHashesMsg, pbfProtocol.NewBlockMsg, pbfProtocol.TxMsg].Nodup ∧
      (∀ code ∈ [pbfProtocol.NewBlockHashesMsg, pbfProtocol.NewBlockMsg, pbfProtocol.TxMsg],
        code ∉ [pbfProtocol.BlockHashesMsg, pbfProtocol.BlocksMsg, pbfProtocol.BlockHeadersMsg,
          pbfProtocol.BlockBodiesMsg, pbfProtocol.NodeDataMsg, pbfProtocol.ReceiptsMsg]) ∧
      (mkMsg 2 33).Code = pbfProtocol.TxMsg ∧
      (meteredStream 0 [mkMsg 2 33]).MsgReadWriter.ReadMsg.1 = (mkMsg 2 33, none)) ∧
    (((meteredStream 0 [mkMsg 2 33]).WriteMsg pbfProtocol (mkMsg 2 33) Env.init).2.2 =
        (counted Direction.Out Category.propTxn (mkMsg 2 33).Size Env.init).call
          (Call.WriteMsg (mkMsg 2 33)) ∧
      ((meteredStream 0 [mkMsg 2 33]).ReadMsg pbfProtocol Env.init).2.2 =
        counted Direction.In Category.propTxn (mkMsg 2 33).Size (Env.init.call Call.ReadMsg)) :=
  ⟨⟨by decide, by decide, rfl, rfl⟩,
   ((C9_version_independent pbfProtocol (meteredStream 0 [mkMsg 2 33]) (mkMsg 2 33) Env.init
      (by decide) (by decide)).2.2.1 rfl).1,
   ((C9_version_independent pbfProtocol (meteredStream 0 [mkMsg 2 33]) (mkMsg 2 33) Env.init
      (by decide) (by decide)).2.2.1 rfl).2 rfl⟩

/-- The switch on a code that only a `version >= pbf63` guard can match. -/
theorem resolve_newest (K : Protocol) (v : Int) (code : Nat)
    (h : code ∉ [K.BlockHashesMsg, K.BlocksMsg, K.BlockHeadersMsg, K.BlockBodiesMsg,
      K.NewBlockHashesMsg, K.NewBlockMsg, K.TxMsg]) :
    resolve K v code =
      if v ≥ K.pbf63 ∧ code = K.NodeDataMsg then Category.reqState
      else if v ≥ K.pbf63 ∧ code = K.ReceiptsMsg then Category.reqReceipt
      else Category.misc := by
  simp only [List.mem_cons, List.mem_singleton, List.not_mem_nil, or_false, not_or] at h
  obtain ⟨h1, h2, h3, h4, h5, h6, h7⟩ := h
  unfold resolve
  rw [if_neg (fun g => h1 g.2), if_neg (fun g => h2 g.2), if_neg (fun g => h3 g.2),
    if_neg (fun g => h4 g.2), if_neg h5, if_neg h6, if_neg h7]

/-- C10 (newest-era gating): let `NodeDataMsg` and `ReceiptsMsg` differ from each other
and from the seven other codes (as in the protocol's table).  Then a message with code
`NodeDataMsg` is counted under req/states if and only if the bound version is
`>= pbf63`, and under the direction's misc category for every version `< pbf63`; a
message with code `ReceiptsMsg` likewise under req/receipts if and only if the version
is `>= pbf63`, and under misc below; in the outbound meters by `WriteMsg` and in the
inbound meters by a successful `ReadMsg`. -/
theorem C10_newest_era_gating {σ : Type} (K : Protocol) (rw : meteredMsgReadWriter σ)
    (msg : p2p.Msg) (e : Env)
    (hdistinct : K.NodeDataMsg ≠ K.ReceiptsMsg)
    (hother : ∀ code ∈ [K.NodeDataMsg, K.ReceiptsMsg],
      code ∉ [K.BlockHashesMsg, K.BlocksMsg, K.BlockHeadersMsg, K.BlockBodiesMsg,
        K.NewBlockHashesMsg, K.NewBlockMsg, K.TxMsg]) :
    (msg.Code = K.NodeDataMsg →
      ((rw.WriteMsg K msg e).2.2 =
          (counted Direction.Out Category.reqState msg.Size e).call (Call.WriteMsg msg)
        ↔ rw.version ≥ K.pbf63) ∧
      (rw.version < K.pbf63 →
        (rw.WriteMsg K msg e).2.2 =
          (counted Direction.Out Category.misc msg.Size e).call (Call.WriteMsg msg)) ∧
      (rw.MsgReadWriter.ReadMsg.1 = (msg, none) →
        ((rw.ReadMsg K e).2.2 =
            counted Direction.In Category.reqState msg.Size (e.call Call.ReadMsg)
          ↔ rw.version ≥ K.pbf63) ∧
        (rw.version < K.pbf63 →
          (rw.ReadMsg K e).2.2 =
            counted Direction.In Category.misc msg.Size (e.call Call.ReadMsg)))) ∧
    (msg.Code = K.ReceiptsMsg →
      ((rw.WriteMsg K msg e).2.2 =
          (counted Direction.Out Category.reqReceipt msg.Size e).call (Call.WriteMsg msg)
        ↔ rw.version ≥ K.pbf63) ∧
      (rw.version < K.pbf63 →
        (rw.WriteMsg K msg e).2.2 =
          (counted Direction.Out Category.misc msg.Size e).call (Call.WriteMsg msg)) ∧
      (rw.MsgReadWriter.ReadMsg.1 = (msg, none) →
        ((rw.ReadMsg K e).2.2 =
            counted Direction.In Category.reqReceipt msg.Size (e.call Call.ReadMsg)
          ↔ rw.version ≥ K.pbf63) ∧
        (rw.version < K.pbf63 →
          (rw.ReadMsg K e).2.2 =
            counted Direction.In Category.misc msg.Size (e.call Call.ReadMsg)))) := by
  have g1 := hother K.NodeDataMsg (by simp)
  have g2 := hother K.ReceiptsMsg (by simp)
  have rs : resolve K rw.version K.NodeDataMsg =
      if rw.version ≥ K.pbf63 then Category.reqState else Category.misc := by
    rw [resolve_newest K _ _ g1]
    by_cases hv : rw.version ≥ K.pbf63
    · rw [if_pos ⟨hv, rfl⟩, if_pos hv]
    · rw [if_neg (fun g => hv g.1), if_neg (fun g => hv g.1), if_neg hv]
  have rr : resolve K rw.version K.ReceiptsMsg =
      if rw.version ≥ K.pbf63 then Category.reqReceipt else Category.misc := by
    rw [resolve_newest K _ _ g2]
    by_cases hv : rw.version ≥ K.pbf63
    · rw [if_neg (fun g => hdistinct g.2.symm), if_pos ⟨hv, rfl⟩, if_pos hv]
    · rw [if_neg (fun g => hv g.1), if_neg (fun g => hv g.1), if_neg hv]
  have key : ∀ (d : Direction) (c : Category) (e0 : Env), c ≠ Category.misc →
      ((counted d (if rw.version ≥ K.pbf63 then c else Category.misc) msg.Size e0).count =
          (counted d c msg.Size e0).count ↔ rw.version ≥ K.pbf63) := by
    intro d c e0 hc
    by_cases hv : rw.version ≥ K.pbf63
    · rw [if_pos hv]
      exact ⟨fun _ => hv, fun _ => rfl⟩
    · rw [if_neg hv]
      exact ⟨fun h => absurd (counted_count_inj d _ _ _ _ e0 h).symm hc, fun h => absurd h hv⟩
  have keyW : ∀ (c : Category), c ≠ Category.misc →
      (((counted Direction.Out (if rw.version ≥ K.pbf63 then c else Category.misc) msg.Size
            e).call (Call.WriteMsg msg) =
          (counted Direction.Out c msg.Size e).call (Call.WriteMsg msg)) ↔
        rw.version ≥ K.pbf63) := by
    intro c hc
    constructor
    · intro h
      have h2 := congrArg Env.count h
      rw [count_call, count_call] at h2
      exact (key Direction.Out c e hc).1 h2
    · intro hv
      rw [if_pos hv]
  have keyR : ∀ (c : Category), c ≠ Category.misc →
      ((counted Direction.In (if rw.version ≥ K.pbf63 then c else Category.misc) msg.Size
            (e.call Call.ReadMsg) =
          counted Direction.In c msg.Size (e.call Call.ReadMsg)) ↔
        rw.version ≥ K.pbf63) := by
    intro c hc
    constructor
    · intro h
      exact (key Direction.In c _ hc).1 (congrArg Env.count h)
    · intro hv
      rw [if_pos hv]
  refine ⟨fun hc => ⟨?_, fun hv => ?_, fun hr => ⟨?_, fun hv => ?_⟩⟩,
    fun hc => ⟨?_, fun hv => ?_, fun hr => ⟨?_, fun hv => ?_⟩⟩⟩
  · rw [WriteMsg_env, hc, rs]
    exact keyW _ (by decide)
  · rw [WriteMsg_env, hc, rs, if_neg (not_le.mpr hv)]
  · rw [ReadMsg_env_ok K rw e msg hr, hc, rs]
    exact keyR _ (by decide)
  · rw [ReadMsg_env_ok K rw e msg hr, hc, rs, if_neg (not_le.mpr hv)]
  · rw [WriteMsg_env, hc, rr]
    exact keyW _ (by decide)
  · rw [WriteMsg_env, hc, rr, if_neg (not_le.mpr hv)]
  · rw [ReadMsg_env_ok K rw e msg hr, hc, rr]
    exact keyR _ (by decide)
  · rw [ReadMsg_env_ok K rw e msg hr, hc, rr, if_neg (not_le.mpr hv)]

/-- Witness of C10: with the protocol table, a message with code 0x0e read on a stream
bound to version 62 is counted under misc. -/
theorem C10_newest_era_gating_witness :
    (pbfProtocol.NodeDataMsg ≠ pbfProtocol.ReceiptsMsg ∧
      (∀ code ∈ [pbfProtocol.NodeDataMsg, pbfProtocol.ReceiptsMsg],
        code ∉ [pbfProtocol.BlockHashesMsg, pbfProtocol.BlocksMsg, pbfProtocol.BlockHeadersMsg,
          pbfProtocol.BlockBodiesMsg, pbfProtocol.NewBlockHashesMsg, pbfProtocol.NewBlockMsg,
          pbfProtocol.TxMsg]) ∧
      (mkMsg 14 50).Code = pbfProtocol.NodeDataMsg ∧
      (meteredStream 62 [mkMsg 14 50]).version < pbfProtocol.pbf63 ∧
      (meteredStream 62 [mkMsg 14 50]).MsgReadWriter.ReadMsg.1 = (mkMsg 14 50, none)) ∧
    ((meteredStream 62 [mkMsg 14 50]).ReadMsg pbfProtocol Env.init).2.2 =
      counted Direction.In Category.misc (mkMsg 14 50).Size (Env.init.call Call.ReadMsg) :=
  ⟨⟨by decide, by decide, rfl, by decide, rfl⟩,
   (((C10_newest_era_gating pbfProtocol (meteredStream 62 [mkMsg 14 50]) (mkMsg 14 50) Env.init
      (by decide) (by decide)).1 rfl).2.2 rfl).2 (by decide)⟩

/-- The guards of the cases are the case guards. -/
theorem caseRules_guards (K : Protocol) (version : Int) (code : Nat) :
    (caseRules K version code).map Prod.fst = caseGuards K version code := rfl

/-- The switch of the two methods is the first-match evaluation of its nine cases. -/
theorem firstMatch_caseRules (K : Protocol) (version : Int) (code : Nat) :
    firstMatch (caseRules K version code) = resolve K version code := by
  simp only [caseRules, firstMatch, decide_eq_true_eq]
  rfl

/-- First-match evaluation looks at the cases whose guard is true only. -/
theorem firstMatch_filter (l : List (Bool × Category)) :
    firstMatch l = (((l.filter Prod.fst).head?).map Prod.snd).getD Category.misc := by
  induction l with
  | nil => rfl
  | cons r rs ih =>
    obtain ⟨g, c⟩ := r
    cases g with
    | true => simp [firstMatch]
    | false => simpa [firstMatch] using ih

/-- The number of cases with a true guard. -/
theorem length_filter_fst (l : List (Bool × Category)) :
    (l.filter Prod.fst).length = (l.map Prod.fst).count true := by
  induction l with
  | nil => rfl
  | cons r rs ih =>
    obtain ⟨g, c⟩ := r
    cases g with
    | true => simp [ih]
    | false => simpa using ih

/-- When at most one guard is true, the order of the cases does not matter. -/
theorem firstMatch_perm (l rs : List (Bool × Category)) (h : (l.map Prod.fst).count true ≤ 1)
    (hp : rs.Perm l) : firstMatch rs = firstMatch l := by
  have hf : (rs.filter Prod.fst).Perm (l.filter Prod.fst) := hp.filter _
  have hl := length_filter_fst l
  rw [firstMatch_filter, firstMatch_filter]
  match hm : l.filter Prod.fst with
  | [] =>
    rw [hm] at hf
    rw [List.perm_nil.mp hf]
  | [a] =>
    rw [hm] at hf
    rw [List.perm_singleton.mp hf]
  | a :: b :: t =>
    rw [hm] at hl
    simp only [List.length_cons] at hl
    omega

/-- Among guards comparing one code with a list of codes, as many are true as the code
occurs in the list. -/
theorem count_decide_eq (code : Nat) (xs : List Nat) :
    (xs.map (fun x => decide (code = x))).count true = xs.count code := by
  induction xs with
  | nil => rfl
  | cons a as ih =>
    rw [List.map_cons, List.count_cons, List.count_cons, ih]
    by_cases h : code = a
    · subst h
      simp
    · have h2 : ¬ a = code := fun g => h g.symm
      simp [h, h2]

/-- Given `pbf62 <= pbf63` and codes that are distinct within each era, at most one of
the nine case guards is true. -/
theorem caseGuards_exclusive (K : Protocol) (version : Int) (code : Nat)
    (hle : K.pbf62 ≤ K.pbf63)
    (hold : [K.BlockHashesMsg, K.BlocksMsg, K.NewBlockHashesMsg, K.NewBlockMsg, K.TxMsg].Nodup)
    (hnew : [K.BlockHeadersMsg, K.BlockBodiesMsg, K.NodeDataMsg, K.ReceiptsMsg,
      K.NewBlockHashesMsg, K.NewBlockMsg, K.TxMsg].Nodup) :
    (caseGuards K version code).count true ≤ 1 := by
  by_cases h62 : version < K.pbf62
  · have h1 : ¬ version ≥ K.pbf62 := not_le.mpr h62
    have h2 : ¬ version ≥ K.pbf63 := fun g => h1 (le_trans hle g)
    have hc := List.nodup_iff_count_le_one.mp hold code
    rw [← count_decide_eq] at hc
    simpa [caseGuards, h62, h1, h2, List.count_cons] using hc
  · have h1 : version ≥ K.pbf62 := not_lt.mp h62
    by_cases h63 : version ≥ K.pbf63
    · have hc := List.nodup_iff_count_le_one.mp hnew code
      rw [← count_decide_eq] at hc
      simpa [caseGuards, h62, h1, h63, List.count_cons] using hc
    · have hsub : [K.BlockHeadersMsg, K.BlockBodiesMsg, K.NewBlockHashesMsg, K.NewBlockMsg,
          K.TxMsg].Nodup := by
        refine hnew.sublist ?_
        simp
      have hc := List.nodup_iff_count_le_one.mp hsub code
      rw [← count_decide_eq] at hc
      simpa [caseGuards, h62, h1, h63, List.count_cons] using hc

/-- C11 (the nine rules are mutually exclusive): given `pbf62 <= pbf63` and a code
table in which the codes of one era are distinct (the five codes live below `pbf62`, and
the seven codes live from `pbf63` on, which include the five live from `pbf62` on), for
every bound version and every message code at most one of the nine case guards of the
switch is true; hence evaluating the nine cases in any order resolves the same
category: whatever permutation of the cases is evaluated first-match, `WriteMsg` counts
the message under the category it yields, in the outbound meters, and a successful
`ReadMsg` does so in the inbound meters. -/
theorem C11_rules_mutually_exclusive {σ : Type} (K : Protocol) (rw : meteredMsgReadWriter σ)
    (msg : p2p.Msg) (e : Env)
    (hle : K.pbf62 ≤ K.pbf63)
    (hold : [K.BlockHashesMsg, K.BlocksMsg, K.NewBlockHashesMsg, K.NewBlockMsg, K.TxMsg].Nodup)
    (hnew : [K.BlockHeadersMsg, K.BlockBodiesMsg, K.NodeDataMsg, K.ReceiptsMsg,
      K.NewBlockHashesMsg, K.NewBlockMsg, K.TxMsg].Nodup) :
    (caseGuards K rw.version msg.Code).count true ≤ 1 ∧
    (∀ rs : List (Bool × Category), rs.Perm (caseRules K rw.version msg.Code) →
      (rw.WriteMsg K msg e).2.2 =
        (counted Direction.Out (firstMatch rs) msg.Size e).call (Call.WriteMsg msg) ∧
      (rw.MsgReadWriter.ReadMsg.1 = (msg, none) →
        (rw.ReadMsg K e).2.2 =
          counted Direction.In (firstMatch rs) msg.Size (e.call Call.ReadMsg))) := by
  have hx := caseGuards_exclusive K rw.version msg.Code hle hold hnew
  refine ⟨hx, fun rs hp => ?_⟩
  have hfm : firstMatch rs = resolve K rw.version msg.Code := by
    rw [← firstMatch_caseRules]
    refine firstMatch_perm _ rs ?_ hp
    rw [caseRules_guards]
    exact hx
  refine ⟨?_, fun hr => ?_⟩
  · rw [WriteMsg_env, hfm]
  · rw [ReadMsg_env_ok K rw e msg hr, hfm]

/-- Witness of C11: the protocol table has `pbf62 <= pbf63` and distinct codes within
each era; on a stream bound to version 63 a message with code 0x04 makes at most one
guard true, and evaluating the nine cases in reverse order counts a written message
under the same category. -/
theorem C11_rules_mutually_exclusive_witness :
    (pbfProtocol.pbf62 ≤ pbfProtocol.pbf63 ∧
      [pbfProtocol.BlockHashesMsg, pbfProtocol.BlocksMsg, pbfProtocol.NewBlockHashesMsg,
        pbfProtocol.NewBlockMsg, pbfProtocol.TxMsg].Nodup ∧
      [pbfProtocol.BlockHeadersMsg, pbfProtocol.BlockBodiesMsg, pbfProtocol.NodeDataMsg,
        pbfProtocol.ReceiptsMsg, pbfProtocol.NewBlockHashesMsg, pbfProtocol.NewBlockMsg,
        pbfProtocol.TxMsg].Nodup) ∧
    (caseGuards pbfProtocol (meteredStream 63 []).version (mkMsg 4 100).Code).count true ≤ 1 ∧
    ((meteredStream 63 []).WriteMsg pbfProtocol (mkMsg 4 100) Env.init).2.2 =
      (counted Direction.Out
        (firstMatch (caseRules pbfProtocol (meteredStream 63 []).version
          (mkMsg 4 100).Code).reverse)
        (mkMsg 4 100).Size Env.init).call (Call.WriteMsg (mkMsg 4 100)) :=
  ⟨⟨by decide, by decide, by decide⟩,
   (C11_rules_mutually_exclusive pbfProtocol (meteredStream 63 []) (mkMsg 4 100) Env.init
      (by decide) (by decide) (by decide)).1,
   ((C11_rules_mutually_exclusive pbfProtocol (meteredStream 63 []) (mkMsg 4 100) Env.init
      (by decide) (by decide) (by decide)).2 _ (List.reverse_perm _)).1⟩

/-- Only the third case of the switch resolves req/headers. -/
theorem resolve_reqHeader (K : Protocol) (v : Int) (code : Nat)
    (h : resolve K v code = Category.reqHeader) : v ≥ K.pbf62 ∧ code = K.BlockHeadersMsg := by
  unfold resolve at h
  by_cases h1 : v < K.pbf62 ∧ code = K.BlockHashesMsg
  · rw [if_pos h1] at h
    exact absurd h (by decide)
  rw [if_neg h1] at h
  by_cases h2 : v < K.pbf62 ∧ code = K.BlocksMsg
  · rw [if_pos h2] at h
    exact absurd h (by decide)
  rw [if_neg h2] at h
  by_cases h3 : v ≥ K.pbf62 ∧ code = K.BlockHeadersMsg
  · exact h3
  rw [if_neg h3] at h
  by_cases h4 : v ≥ K.pbf62 ∧ code = K.BlockBodiesMsg
  · rw [if_pos h4] at h
    exact absurd h (by decide)
  rw [if_neg h4] at h
  by_cases h5 : v ≥ K.pbf63 ∧ code = K.NodeDataMsg
  · rw [if_pos h5] at h
    exact absurd h (by decide)
  rw [if_neg h5] at h
  by_cases h6 : v ≥ K.pbf63 ∧ code = K.ReceiptsMsg
  · rw [if_pos h6] at h
    exact absurd h (by decide)
  rw [if_neg h6] at h
  by_cases h7 : code = K.NewBlockHashesMsg
  · rw [if_pos h7] at h
    exact absurd h (by decide)
  rw [if_neg h7] at h
  by_cases h8 : code = K.NewBlockMsg
  · rw [if_pos h8] at h
    exact absurd h (by decide)
  rw [if_neg h8] at h
  by_cases h9 : code = K.TxMsg
  · rw [if_pos h9] at h
    exact absurd h (by decide)
  rw [if_neg h9] at h
  exact absurd h (by decide)

/-- Only the fourth case of the switch resolves req/bodies. -/
theorem resolve_reqBody (K : Protocol) (v : Int) (code : Nat)
    (h : resolve K v code = Category.reqBody) : v ≥ K.pbf62 ∧ code = K.BlockBodiesMsg := by
  unfold resolve at h
  by_cases h1 : v < K.pbf62 ∧ code = K.BlockHashesMsg
  · rw [if_pos h1] at h
    exact absurd h (by decide)
  rw [if_neg h1] at h
  by_cases h2 : v < K.pbf62 ∧ code = K.BlocksMsg
  · rw [if_pos h2] at h
    exact absurd h (by decide)
  rw [if_neg h2] at h
  by_cases h3 : v ≥ K.pbf62 ∧ code = K.BlockHeadersMsg
  · rw [if_pos h3] at h
    exact absurd h (by decide)
  rw [if_neg h3] at h
  by_cases h4 : v ≥ K.pbf62 ∧ code = K.BlockBodiesMsg
  · exact h4
  rw [if_neg h4] at h
  by_cases h5 : v ≥ K.pbf63 ∧ code = K.NodeDataMsg
  · rw [if_pos h5] at h
    exact absurd h (by decide)
  rw [if_neg h5] at h
  by_cases h6 : v ≥ K.pbf63 ∧ code = K.ReceiptsMsg
  · rw [if_pos h6] at h
    exact absurd h (by decide)
  rw [if_neg h6] at h
  by_cases h7 : code = K.NewBlockHashesMsg
  · rw [if_pos h7] at h
    exact absurd h (by decide)
  rw [if_neg h7] at h
  by_cases h8 : code = K.NewBlockMsg
  · rw [if_pos h8] at h
    exact absurd h (by decide)
  rw [if_neg h8] at h
  by_cases h9 : code = K.TxMsg
  · rw [if_pos h9] at h
    exact absurd h (by decide)
  rw [if_neg h9] at h
  exact absurd h (by decide)

/-- Counterexample to C12 as stated: with the protocol table, on a stream bound to
version 63 a message with code `BlockHeadersMsg` (0x04) is counted under req/headers by
`WriteMsg` and by a successful `ReadMsg`, although `pbf62 <= 63 < pbf63` is false: the
guard of the case has no upper bound at `pbf63`. -/
theorem C12_upper_bound_counterexample :
    ¬ (((meteredStream 63 []).WriteMsg pbfProtocol (mkMsg 4 100) Env.init).2.2 =
          (counted Direction.Out Category.reqHeader (mkMsg 4 100).Size Env.init).call
            (Call.WriteMsg (mkMsg 4 100))
        ↔ (pbfProtocol.pbf62 ≤ (meteredStream 63 []).version ∧
            (meteredStream 63 []).version < pbfProtocol.pbf63)) ∧
    ¬ (((meteredStream 63 [mkMsg 4 100]).ReadMsg pbfProtocol Env.init).2.2 =
          counted Direction.In Category.reqHeader (mkMsg 4 100).Size
            (Env.init.call Call.ReadMsg)
        ↔ (pbfProtocol.pbf62 ≤ (meteredStream 63 [mkMsg 4 100]).version ∧
            (meteredStream 63 [mkMsg 4 100]).version < pbfProtocol.pbf63)) := by
  refine ⟨fun h => ?_, fun h => ?_⟩
  · have hw : ((meteredStream 63 []).WriteMsg pbfProtocol (mkMsg 4 100) Env.init).2.2 =
        (counted Direction.Out Category.reqHeader (mkMsg 4 100).Size Env.init).call
          (Call.WriteMsg (mkMsg 4 100)) := by
      rw [WriteMsg_env]
      rfl
    exact absurd (h.mp hw).2 (by decide)
  · have hr : ((meteredStream 63 [mkMsg 4 100]).ReadMsg pbfProtocol Env.init).2.2 =
        counted Direction.In Category.reqHeader (mkMsg 4 100).Size
          (Env.init.call Call.ReadMsg) := by
      rw [ReadMsg_env_ok pbfProtocol (meteredStream 63 [mkMsg 4 100]) Env.init (mkMsg 4 100) rfl]
      rfl
    exact absurd (h.mp hr).2 (by decide)

/-- C12, amended (gating of the codes reinterpreted at the first era boundary): the
rules are gated on `version >= pbf62` alone, with no upper bound at `pbf63`.  A message
with code `BlockHeadersMsg` is counted under req/headers if and only if the bound
version is `>= pbf62`, and, given that `BlockHeadersMsg` and `BlockBodiesMsg` differ, a
message with code `BlockBodiesMsg` is counted under req/bodies if and only if the bound
version is `>= pbf62`; in the outbound meters by `WriteMsg` and in the inbound meters
by a successful `ReadMsg`. -/
theorem C12_headers_bodies_gating {σ : Type} (K : Protocol) (rw : meteredMsgReadWriter σ)
    (msg : p2p.Msg) (e : Env) (hne : K.BlockHeadersMsg ≠ K.BlockBodiesMsg) :
    (msg.Code = K.BlockHeadersMsg →
      ((rw.WriteMsg K msg e).2.2 =
          (counted Direction.Out Category.reqHeader msg.Size e).call (Call.WriteMsg msg)
        ↔ rw.version ≥ K.pbf62) ∧
      (rw.MsgReadWriter.ReadMsg.1 = (msg, none) →
        ((rw.ReadMsg K e).2.2 =
            counted Direction.In Category.reqHeader msg.Size (e.call Call.ReadMsg)
          ↔ rw.version ≥ K.pbf62))) ∧
    (msg.Code = K.BlockBodiesMsg →
      ((rw.WriteMsg K msg e).2.2 =
          (counted Direction.Out Category.reqBody msg.Size e).call (Call.WriteMsg msg)
        ↔ rw.version ≥ K.pbf62) ∧
      (rw.MsgReadWriter.ReadMsg.1 = (msg, none) →
        ((rw.ReadMsg K e).2.2 =
            counted Direction.In Category.reqBody msg.Size (e.call Call.ReadMsg)
          ↔ rw.version ≥ K.pbf62))) := by
  refine ⟨fun hc => ⟨⟨fun h => ?_, fun hv => ?_⟩, fun hr => ⟨fun h => ?_, fun hv => ?_⟩⟩,
    fun hc => ⟨⟨fun h => ?_, fun hv => ?_⟩, fun hr => ⟨fun h => ?_, fun hv => ?_⟩⟩⟩
  · rw [WriteMsg_env] at h
    have h2 := congrArg Env.count h
    rw [count_call, count_call] at h2
    exact (resolve_reqHeader K _ _ (counted_count_inj _ _ _ _ _ e h2)).1
  · rw [WriteMsg_env, hc, resolve_new_headers K rw.version hv]
  · rw [ReadMsg_env_ok K rw e msg hr] at h
    exact (resolve_reqHeader K _ _ (counted_count_inj _ _ _ _ _ _ (congrArg Env.count h))).1
  · rw [ReadMsg_env_ok K rw e msg hr, hc, resolve_new_headers K rw.version hv]
  · rw [WriteMsg_env] at h
    have h2 := congrArg Env.count h
    rw [count_call, count_call] at h2
    exact (resolve_reqBody K _ _ (counted_count_inj _ _ _ _ _ e h2)).1
  · rw [WriteMsg_env, hc, resolve_new_bodies K rw.version hv hne]
  · rw [ReadMsg_env_ok K rw e msg hr] at h
    exact (resolve_reqBody K _ _ (counted_count_inj _ _ _ _ _ _ (congrArg Env.count h))).1
  · rw [ReadMsg_env_ok K rw e msg hr, hc, resolve_new_bodies K rw.version hv hne]

/-- Witness of the amended C12: with the protocol table, a message with code 0x06
written on a stream bound to version 63 is counted under req/bodies. -/
theorem C12_headers_bodies_gating_witness :
    (pbfProtocol.BlockHeadersMsg ≠ pbfProtocol.BlockBodiesMsg ∧
      (mkMsg 6 100).Code = pbfProtocol.BlockBodiesMsg ∧
      (meteredStream 63 []).version ≥ pbfProtocol.pbf62) ∧
    ((meteredStream 63 []).WriteMsg pbfProtocol (mkMsg 6 100) Env.init).2.2 =
      (counted Direction.Out Category.reqBody (mkMsg 6 100).Size Env.init).call
        (Call.WriteMsg (mkMsg 6 100)) :=
  ⟨⟨by decide, rfl, by decide⟩,
   ((C12_headers_bodies_gating pbfProtocol (meteredStream 63 []) (mkMsg 6 100) Env.init
      (by decide)).2 rfl).1.mpr (by decide)⟩

end Pbf
